import Mathlib

/-!
# pinger: probe cycle, drivers, MTU discovery and statistics

A shallow embedding of `main.go`.

* The three package-level variables `PacketsSent`, `PacketsRecv` and `RTTStats`
  form the `Store`; functions that mutate them take a store and return one.
* The map `RTTStats` is a list of `(seq, rtt)` entries; `RTTMap.set` is the map
  assignment `m[k] = v`.  A `range` over the map visits the entries in some
  order: the functions that range over it walk the list, and the theorems show
  the results do not depend on the order.
* What the socket, the clock and the ICMP library answer during a probe cycle
  is an explicit input (`Net`, `ReadResult`).
* A `time.Duration` is a count of nanoseconds in an `int64`: the sums and
  differences of durations that the statistics compute wrap around as in Go
  (`wrap64`).  The counters that advance by one per probe or per entry
  (`PacketsSent`, `PacketsRecv`, `seq`, `count`, `validRTT`) are mathematical
  integers: they would need `2^63` steps to wrap.
* `float64` values are exact rationals, with NaN and the infinities for the
  divisions by zero (`F64`).
* Console output is a list of `Line` values, one per printed line, without the
  text of the format strings.
-/

namespace Pinger

/-! ## Durations -/

/-- A `time.Duration`: a count of nanoseconds. -/
abbrev Duration := Int

/-- The `int64` that a computation with the exact result `x` yields in Go: `x`
wrapped around into the range from `-2^63` to `2^63 - 1`. -/
def wrap64 (x : Int) : Int :=
  (x + 9223372036854775808) % 18446744073709551616 - 9223372036854775808

/-- The constant `time.Microsecond`. -/
def Microsecond : Duration := 1000

/-- The constant `time.Millisecond`. -/
def Millisecond : Duration := 1000 * Microsecond

/-- The constant `time.Second`. -/
def Second : Duration := 1000 * Millisecond

/-- The constant `minDuration` of Go's `time` package. -/
def minDuration : Duration := -9223372036854775808

/-- The constant `maxDuration` of Go's `time` package. -/
def maxDuration : Duration := 9223372036854775807

/-- The method `Duration.Round` of Go's `time` package: `d` rounded to the
nearest multiple of `m`, halfway values away from zero; `d` itself when
`m ≤ 0`, and the minimum or maximum duration when the result would
overflow. -/
def Round (d m : Duration) : Duration :=
  if m ≤ 0 then d
  else
    let r := Int.tmod d m
    if d < 0 then
      let r := -r
      if r + r < m then d + r
      else
        let d1 := wrap64 (d - m + r)
        if d1 < d then d1 else minDuration
    else
      if r + r < m then d - r
      else
        let d1 := wrap64 (d + m - r)
        if d1 > d then d1 else maxDuration

/-! ## Floating-point values -/

/-- A `float64` value as the reporters compute it: a finite value is the exact
rational (rounding is not modelled, nor the sign of a zero), and a division by
zero gives an infinity or NaN as in IEEE 754. -/
inductive F64
  | fin (q : ℚ)
  | posInf
  | negInf
  | nan
deriving DecidableEq, Repr

/-- The conversion `float64(n)`. -/
def F64.ofInt (n : Int) : F64 := .fin n

/-- The quotient `x / y` of two `float64` values. -/
def F64.div : F64 → F64 → F64
  | .fin a, .fin b =>
    if b = 0 then (if a = 0 then .nan else if 0 < a then .posInf else .negInf)
    else .fin (a / b)
  | .fin _, .posInf => .fin 0
  | .fin _, .negInf => .fin 0
  | .posInf, .fin b => if 0 ≤ b then .posInf else .negInf
  | .negInf, .fin b => if 0 ≤ b then .negInf else .posInf
  | _, _ => .nan

/-- The product `x * y` of two `float64` values. -/
def F64.mul : F64 → F64 → F64
  | .fin a, .fin b => .fin (a * b)
  | .fin a, .posInf => if a = 0 then .nan else if 0 < a then .posInf else .negInf
  | .fin a, .negInf => if a = 0 then .nan else if 0 < a then .negInf else .posInf
  | .posInf, .fin b => if b = 0 then .nan else if 0 < b then .posInf else .negInf
  | .negInf, .fin b => if b = 0 then .nan else if 0 < b then .negInf else .posInf
  | .posInf, .posInf => .posInf
  | .negInf, .negInf => .posInf
  | .posInf, .negInf => .negInf
  | .negInf, .posInf => .negInf
  | _, _ => .nan

/-- The value is neither NaN nor an infinity. -/
def F64.isFinite : F64 → Bool
  | .fin _ => true
  | _ => false

/-- The conversion `int(x)` of a finite value: truncation toward zero. -/
def F64.toInt : F64 → Int
  | .fin q => Int.tdiv q.num q.den
  | _ => 0

/-! ## Flags and the statistics store -/

/-- The command-line flags the modelled functions read. -/
structure Flags where
  /-- Flag `-c`: stop after count packets, 0 = infinite. -/
  count : Int
  /-- Flag `-i`: interval between packets. -/
  interval : Duration
  /-- Flag `-s`: ICMP data size. -/
  size : Int
  /-- Flag `-v`: verbose statistics. -/
  verbose : Bool
  /-- Flag `-t`: IP TTL, the hop ceiling of the trace mode. -/
  ttl : Int
  /-- Flag `-trace`. -/
  traceMode : Bool
  /-- Flag `-o`: the JSON file, empty for none. -/
  output : String
deriving DecidableEq, Repr

/-- The type `map[int]time.Duration`, as its list of entries. -/
abbrev RTTMap := List (Int × Duration)

/-- The index expression `_, ok := m[k]`. -/
def RTTMap.has (m : RTTMap) (k : Int) : Bool :=
  m.any (fun e => e.1 == k)

/-- The assignment `m[k] = v`: the entry of an existing key is overwritten, a
new key gets a new entry. -/
def RTTMap.set : RTTMap → Int → Duration → RTTMap
  | [], k, v => [(k, v)]
  | e :: m, k, v => if e.1 = k then (k, v) :: m else e :: RTTMap.set m k v

/-- The keys of the map. -/
def RTTMap.keys (m : RTTMap) : List Int :=
  m.map Prod.fst

/-- The package-level statistics `PacketsSent`, `PacketsRecv`, `RTTStats`. -/
structure Store where
  PacketsSent : Int
  PacketsRecv : Int
  RTTStats : RTTMap
deriving DecidableEq, Repr

/-- The store as `main` resets it before a run. -/
def Store.reset : Store :=
  { PacketsSent := 0, PacketsRecv := 0, RTTStats := [] }

/-! ## Packets -/

/-- The two message types `icmpMsg` sends. -/
inductive ICMPType
  /-- The type `ipv4.ICMPTypeEcho`. -/
  | ipv4Echo
  /-- The type `ipv6.ICMPTypeEchoRequest`. -/
  | ipv6EchoRequest
deriving DecidableEq, Repr

/-- The body `icmp.Echo`. -/
structure Echo where
  ID : Int
  Seq : Int
  Data : List Nat
deriving DecidableEq, Repr

/-- An `icmp.Message` with an echo body, as `icmpMsg` builds it. -/
structure Message where
  Typ : ICMPType
  Code : Int
  Body : Echo
deriving DecidableEq, Repr

/-- The body of a parsed incoming message, by the type switch of the receive
loop. -/
inductive Body
  /-- A body of type `*icmp.Echo`. -/
  | echo (e : Echo)
  /-- A body of type `*icmp.TimeExceeded`. -/
  | timeExceeded
  /-- Any other body. -/
  | other
deriving DecidableEq, Repr

/-- The payload `data[i] = byte('A' + i%26)` for `i` below `n`. -/
def payload (n : Nat) : List Nat :=
  (List.range n).map (fun i => (65 + i % 26) % 256)

/-- The function `icmpMsg`: the echo request for the destination's address
family (`v4` is `ip.To4() != nil`) with `*size` pattern bytes, and its `error`
result.  This is what the function returns when `make([]byte, *size)` gives
a slice; for a negative size, or one that the allocator cannot serve, `make`
panics and the function returns nothing.  The flag is 0..1472 when the
function runs in the program (`main` checks it, `discoverMTU` keeps it). -/
def icmpMsg (f : Flags) (v4 : Bool) (id seq : Int) : Message × Option String :=
  let data := payload f.size.toNat
  if v4 then
    ({ Typ := .ipv4Echo, Code := 0, Body := { ID := id, Seq := seq, Data := data } }, none)
  else
    ({ Typ := .ipv6EchoRequest, Code := 0, Body := { ID := id, Seq := seq, Data := data } }, none)

/-! ## The probe cycle -/

/-- The result of one `c.ReadFrom` call of the receive loop, with what the
following statements derive from it. -/
inductive ReadResult
  /-- The read deadline passed: a `net.Error` with `Timeout()`. -/
  | timeout
  /-- Any other read error. -/
  | failed
  /-- A packet from `peer`; `rtt` is `time.Since(start)` right after the read
  and `parsed` what `icmp.ParseMessage` makes of the bytes, `none` for a parse
  error. -/
  | packet (peer : String) (rtt : Duration) (parsed : Option Body)
deriving DecidableEq, Repr

/-- What the library, the socket and the clock answer during one probe cycle.
After the last element of `reads` the read deadline has passed. -/
structure Net where
  /-- The call `msg.Marshal(nil)` succeeds. -/
  marshalOk : Bool
  /-- The call `c.WriteTo(wb, dst)` succeeds. -/
  writeOk : Bool
  /-- The results of the successive `c.ReadFrom` calls. -/
  reads : List ReadResult
deriving DecidableEq, Repr

/-- The colour functions. -/
inductive Colour
  | green | yellow | red
deriving DecidableEq, Repr

/-- A line (or fragment of a line) written to the console or the log. -/
inductive Line
  /-- Log line "marshal error". -/
  | marshalError
  /-- Line "send error icmp_seq=". -/
  | sendError (seq : Int)
  /-- The responder of a TimeExceeded message with the rounded latency. -/
  | hopResponder (peer : String) (rtt : Duration)
  /-- Line "n bytes peer icmp_seq= rtt" in the colour of the latency. -/
  | reply (bytes : Nat) (peer : String) (seq : Int) (rtt : Duration) (c : Colour)
  /-- The destination's reply in trace mode, with the rounded latency. -/
  | traceReply (peer : String) (rtt : Duration)
  /-- Line "Request timeout for icmp_seq=". -/
  | requestTimeout (seq : Int)
  /-- Line "*", the timeout marker of the trace mode. -/
  | star
  /-- The heading of `runTraceroute`, with the hop ceiling. -/
  | traceHeader (hops : Int)
  /-- The hop number that starts a hop's line. -/
  | hopNumber (hop : Int)
  /-- The marker " DEST!". -/
  | dest
  /-- An empty `fmt.Println()`. -/
  | newline
  /-- The heading "--- ping statistics ---". -/
  | statsHeader
  /-- Line "transmitted, received, packet loss". -/
  | counts (sent recv : Int) (loss : F64)
  /-- Line "round-trip min/avg/max" with the three rounded values. -/
  | roundTrip (min avg max : Duration)
  /-- Line "Jitter" of the verbose statistics. -/
  | jitter (j : Duration)
  /-- Line "Bandwidth" of the verbose statistics. -/
  | bandwidth (mbps : F64)
  /-- Line "Frame size" of the verbose statistics. -/
  | frame (bytes size : Int)
  /-- The live line: packets sent, the count flag, the progress bar (its
  filled segments and the percentage) when there is one, the loss and the
  rounded average. -/
  | live (sent count : Int) (progress : Option (Int × F64)) (loss : F64) (avg : Duration)
  /-- Log line "JSON marshal error". -/
  | jsonMarshalError
  /-- Log line "write file error". -/
  | writeFileError
  /-- Line "Statistics saved to". -/
  | saved (filename : String)
  /-- Line "Testing MTU...". -/
  | mtuStart
  /-- Line "MTU n OK". -/
  | mtuOK (testSize : Int)
  /-- Line "MTU n FAILED (k/3)". -/
  | mtuFailed (testSize : Int) (success : Nat)
  /-- Line "Max MTU: n bytes (size set to m)". -/
  | maxMTU (maxSuccess size : Int)
  /-- Line "No MTU discovered, using default". -/
  | noMTU
deriving DecidableEq, Repr

/-- The `return` statement (or the end of the body) by which
`sendAndRecvPing` ends. -/
inductive Exit
  /-- After `icmpMsg` or `msg.Marshal` failed. -/
  | marshalError
  /-- After `c.WriteTo` failed. -/
  | sendError
  /-- After a TimeExceeded message. -/
  | hopResponder
  /-- After the echo reply with this probe's id and seq. -/
  | matched
  /-- At the end of the body, after the timeout marker. -/
  | noReply
deriving DecidableEq, Repr

/-- The effects of one call of `sendAndRecvPing`. -/
structure Cycle where
  /-- The store after the call. -/
  store : Store
  /-- The lines printed. -/
  out : List Line
  /-- The number of `c.ReadFrom` calls made. -/
  reads : Nat
  /-- How the call ended. -/
  exit : Exit
deriving DecidableEq, Repr

/-- The local `maxRecvAttempts := 5`. -/
def maxRecvAttempts : Nat := 5

/-- The statements after the receive loop: the timeout marker. -/
def noReply (f : Flags) (seq : Int) (st : Store) (reads : Nat) : Cycle :=
  { store := st
    out := if !f.traceMode then [.requestTimeout seq] else [.star]
    reads := reads
    exit := .noReply }

/-- The branch of the receive loop for the echo reply with this probe's id and
seq: the measurement is recorded and the reply line printed. -/
def recordReply (f : Flags) (seq : Int) (st : Store) (peer : String) (rtt : Duration)
    (e : Echo) (reads : Nat) : Cycle :=
  let st := { st with PacketsRecv := st.PacketsRecv + 1, RTTStats := st.RTTStats.set seq rtt }
  let rttRounded := Round rtt Microsecond
  { store := st
    out :=
      if !f.traceMode then
        if rttRounded < 1 * Millisecond then
          [.reply e.Data.length peer seq rttRounded .green]
        else if rttRounded < 10 * Millisecond then
          [.reply e.Data.length peer seq rttRounded .yellow]
        else
          [.reply e.Data.length peer seq rttRounded .red]
      else
        [.traceReply peer (Round rtt Millisecond)]
    reads := reads
    exit := .matched }

/-- The receive loop `for recvCount < maxRecvAttempts` of `sendAndRecvPing`:
`rs` are the results of the reads still to come, `recvCount` the loop's
counter and `reads` the number of reads made so far. -/
def recvLoop (f : Flags) (id seq : Int) (st : Store) : List ReadResult → Nat → Nat → Cycle
  | [], recvCount, reads =>
    if recvCount < maxRecvAttempts then noReply f seq st (reads + 1)
    else noReply f seq st reads
  | r :: rs, recvCount, reads =>
    if recvCount < maxRecvAttempts then
      match r with
      | .timeout => noReply f seq st (reads + 1)
      | .failed => noReply f seq st (reads + 1)
      | .packet peer rtt parsed =>
        if rtt < 10 * Microsecond then recvLoop f id seq st rs recvCount (reads + 1)
        else
          match parsed with
          | none => recvLoop f id seq st rs recvCount (reads + 1)
          | some .timeExceeded =>
            { store := st
              out := [.hopResponder peer (Round rtt Millisecond)]
              reads := reads + 1
              exit := .hopResponder }
          | some (.echo e) =>
            if e.ID = id ∧ e.Seq = seq then recordReply f seq st peer rtt e (reads + 1)
            else recvLoop f id seq st rs (recvCount + 1) (reads + 1)
          | some .other => recvLoop f id seq st rs (recvCount + 1) (reads + 1)
    else noReply f seq st reads

/-- The function `sendAndRecvPing`: one probe with sequence number `seq`. -/
def sendAndRecvPing (f : Flags) (v4 : Bool) (id seq : Int) (net : Net) (st : Store) : Cycle :=
  match (icmpMsg f v4 id seq).2 with
  | some _ => { store := st, out := [.marshalError], reads := 0, exit := .marshalError }
  | none =>
    if !net.marshalOk then
      { store := st, out := [.marshalError], reads := 0, exit := .marshalError }
    else
      let st := { st with PacketsSent := st.PacketsSent + 1 }
      if !net.writeOk then
        { store := st, out := [.sendError seq], reads := 0, exit := .sendError }
      else
        recvLoop f id seq st net.reads 0 0

/-! ## The drivers -/

/-- The store and the sequence counter of a run. -/
structure RunState where
  store : Store
  seq : Int
deriving DecidableEq, Repr

/-- The loop of `runPing`: the states after each iteration, for as long as the
loop condition holds and `nets` describes the network. -/
def runPing (f : Flags) (v4 : Bool) (id : Int) : List Net → RunState → List RunState
  | [], _ => []
  | net :: nets, s =>
    if f.count = 0 ∨ s.store.PacketsSent < f.count then
      let c := sendAndRecvPing f v4 id s.seq net s.store
      let s := { store := c.store, seq := s.seq + 1 : RunState }
      s :: runPing f v4 id nets s
    else []

/-- The effects of `runTraceroute`. -/
structure Trace where
  /-- The store and the sequence counter at the end. -/
  state : RunState
  /-- The lines printed. -/
  out : List Line
  /-- The states after each hop's probe cycle, in order. -/
  hops : List (Int × RunState)
  /-- The loop ended by `break`, after the marker " DEST!". -/
  reached : Bool
deriving DecidableEq, Repr

/-- The loop `for hop := 1; hop <= maxHops; hop++` of `runTraceroute` from
`hop` on; `net hop` is the network's behaviour while the TTL is `hop`, and
`n` bounds the number of iterations left. -/
def traceLoop (f : Flags) (v4 : Bool) (id : Int) (net : Int → Net) (maxHops : Int) :
    Nat → Int → RunState → Trace
  | 0, _, s => { state := s, out := [], hops := [], reached := false }
  | n + 1, hop, s =>
    if hop ≤ maxHops then
      let c := sendAndRecvPing f v4 id s.seq (net hop) s.store
      let s := { store := c.store, seq := s.seq + 1 : RunState }
      if s.store.RTTStats.has (s.seq - 1) then
        { state := s
          out := .hopNumber hop :: c.out ++ [.dest]
          hops := [(hop, s)]
          reached := true }
      else
        let t := traceLoop f v4 id net maxHops n (hop + 1) s
        { t with
          out := .hopNumber hop :: c.out ++ .newline :: t.out
          hops := (hop, s) :: t.hops }
    else { state := s, out := [], hops := [], reached := false }

/-- The function `runTraceroute`: hops 1 to `*ttl`. -/
def runTraceroute (f : Flags) (v4 : Bool) (id : Int) (net : Int → Net) (s : RunState) : Trace :=
  let maxHops := f.ttl
  let t := traceLoop f v4 id net maxHops maxHops.toNat 1 s
  { t with out := .traceHeader f.ttl :: t.out ++ [.newline] }

/-! ## Statistics -/

/-- The function `calculateJitter`, the loop `for i := 1; i < len(rtts); i++`:
`prev` is `rtts[i-1]`, the list holds `rtts[i]` and what follows. -/
def jitterLoop : Duration → List Duration → Duration → Duration
  | _, [], totalDiff => totalDiff
  | prev, x :: xs, totalDiff =>
    let diff := wrap64 (x - prev)
    let diff := if diff < 0 then wrap64 (-diff) else diff
    jitterLoop x xs (wrap64 (totalDiff + diff))

/-- The function `calculateJitter`. -/
def calculateJitter (rtts : List Duration) : Duration :=
  if rtts.length < 2 then 0
  else
    match rtts with
    | [] => 0
    | r :: rest => Int.tdiv (jitterLoop r rest 0) ((rtts.length : Int) - 1)

/-- The function `calculateBandwidth`. -/
def calculateBandwidth (sent size : Int) (interval : Duration) : F64 :=
  let totalBytes := F64.ofInt (wrap64 (size * sent))
  let totalTime := F64.mul (.fin ((interval : ℚ) / 1000000000)) (F64.ofInt sent)
  let bytesPerSec := F64.div totalBytes totalTime
  F64.div (F64.mul bytesPerSec (.fin 8)) (.fin 1000000)

/-- The expression `float64(sent-recv) / float64(sent) * 100` of the three
reporters. -/
def lossPercent (sent recv : Int) : F64 :=
  F64.mul (F64.div (F64.ofInt (sent - recv)) (F64.ofInt sent)) (.fin 100)

/-- The struct `statsResult`. -/
structure statsResult where
  min : Duration
  avg : Duration
  max : Duration
deriving DecidableEq, Repr

/-- The locals `total`, `min`, `max` and `count` of `calculateStats`. -/
structure StatsAcc where
  total : Duration
  min : Duration
  max : Duration
  count : Int
deriving DecidableEq, Repr

/-- The loop `for _, rtt := range rtts` of `calculateStats`, over the entries
in the order the range visits them. -/
def statsLoop : List (Int × Duration) → StatsAcc → StatsAcc
  | [], a => a
  | (_, rtt) :: rest, a =>
    if rtt > 0 then
      statsLoop rest
        { total := wrap64 (a.total + rtt)
          min := if a.count = 0 ∨ rtt < a.min then rtt else a.min
          max := if a.count = 0 ∨ rtt > a.max then rtt else a.max
          count := a.count + 1 }
    else statsLoop rest a

/-- The function `calculateStats`. -/
def calculateStats (rtts : RTTMap) : statsResult :=
  let a := statsLoop rtts { total := 0, min := 0, max := 0, count := 0 }
  let avg := if a.count > 0 then Int.tdiv a.total a.count else 0
  { min := a.min, avg := avg, max := a.max }

/-- The locals `total`, `min`, `max`, `validRTT` and `rttValues` of
`printStats`. -/
structure PrintAcc where
  total : Duration
  min : Duration
  max : Duration
  validRTT : Int
  rttValues : List Duration
deriving DecidableEq, Repr

/-- The loop `for _, rtt := range rtts` of `printStats`. -/
def printStatsLoop : List (Int × Duration) → PrintAcc → PrintAcc
  | [], a => a
  | (_, rtt) :: rest, a =>
    if rtt > 0 then
      printStatsLoop rest
        { total := wrap64 (a.total + rtt)
          rttValues := a.rttValues ++ [rtt]
          min := if a.validRTT = 0 ∨ rtt < a.min then rtt else a.min
          max := if a.validRTT = 0 ∨ rtt > a.max then rtt else a.max
          validRTT := a.validRTT + 1 }
    else printStatsLoop rest a

/-- The function `printStats`: the lines of the final report. -/
def printStats (f : Flags) (st : Store) : List Line :=
  let sent := st.PacketsSent
  let recv := st.PacketsRecv
  let rtts := st.RTTStats
  if sent = 0 then []
  else
    let loss := lossPercent sent recv
    let head := [Line.statsHeader, Line.counts sent recv loss]
    if recv = 0 ∨ rtts.length = 0 then head
    else
      let a := printStatsLoop rtts { total := 0, min := 0, max := 0, validRTT := 0, rttValues := [] }
      if a.validRTT = 0 then head
      else
        let avg := Int.tdiv a.total a.validRTT
        let minRounded := Round a.min Microsecond
        let avgRounded := Round avg Microsecond
        let maxRounded := Round a.max Millisecond
        let body := head ++ [Line.roundTrip minRounded avgRounded maxRounded]
        if f.verbose then
          let jitter := calculateJitter a.rttValues
          let bandwidth := calculateBandwidth sent f.size f.interval
          body ++ [Line.jitter (Round jitter Microsecond), Line.bandwidth bandwidth,
            Line.frame (wrap64 (f.size + 42)) f.size]
        else body

/-- The loop `for _, rtt := range rtts` of `printLiveStats`: the sum and the
number of the positive values. -/
def liveLoop : List (Int × Duration) → Duration → Int → Duration × Int
  | [], avg, valid => (avg, valid)
  | (_, rtt) :: rest, avg, valid =>
    if rtt > 0 then liveLoop rest (wrap64 (avg + rtt)) (valid + 1) else liveLoop rest avg valid

/-- The function `printLiveStats`: the live line. -/
def printLiveStats (f : Flags) (st : Store) : List Line :=
  let sent := st.PacketsSent
  let recv := st.PacketsRecv
  let rtts := st.RTTStats
  if sent = 0 then []
  else
    let loss := lossPercent sent recv
    let (avg, valid) := liveLoop rtts 0 0
    let avg := if valid > 0 then Int.tdiv avg valid else avg
    let progress :=
      if f.count > 0 then
        let pct := F64.mul (F64.div (F64.ofInt sent) (F64.ofInt f.count)) (.fin 100)
        let bars := (F64.div pct (.fin 5)).toInt
        let bars := if bars > 20 then 20 else bars
        some (bars, pct)
      else none
    [Line.live sent f.count progress loss (Round avg Microsecond)]

/-- The struct `PingMeasurement`. -/
structure PingMeasurement where
  Seq : Int
  RTT : Duration
deriving DecidableEq, Repr

/-- The struct `PingStats`. -/
structure PingStats where
  PacketsSent : Int
  PacketsRecv : Int
  PacketLoss : F64
  MinRTT : Duration
  AvgRTT : Duration
  MaxRTT : Duration
  Measurements : List PingMeasurement
deriving DecidableEq, Repr

/-- The loop of `writeJSONStats` that collects the measurements with a
positive RTT. -/
def measurementsOf : List (Int × Duration) → List PingMeasurement
  | [] => []
  | (seq, rtt) :: rest =>
    if rtt > 0 then { Seq := seq, RTT := rtt } :: measurementsOf rest else measurementsOf rest

/-- The effects of `writeJSONStats`. -/
structure JSONWrite where
  /-- The value `result` handed to `json.MarshalIndent`. -/
  result : PingStats
  /-- The statistics written to the file, `none` when no file was written. -/
  file : Option PingStats
  /-- The lines printed or logged. -/
  out : List Line
deriving DecidableEq, Repr

/-- The function `writeJSONStats`.  `json.MarshalIndent` fails on a float that
is NaN or an infinity; `fileOk` is the success of `os.WriteFile`. -/
def writeJSONStats (filename : String) (fileOk : Bool) (st : Store) : JSONWrite :=
  let sent := st.PacketsSent
  let recv := st.PacketsRecv
  let rtts := st.RTTStats
  let stats := calculateStats rtts
  let measurements := measurementsOf rtts
  let result : PingStats :=
    { PacketsSent := sent
      PacketsRecv := recv
      PacketLoss := lossPercent sent recv
      MinRTT := stats.min
      AvgRTT := stats.avg
      MaxRTT := stats.max
      Measurements := measurements }
  if !result.PacketLoss.isFinite then
    { result := result, file := none, out := [.jsonMarshalError] }
  else if !fileOk then
    { result := result, file := none, out := [.writeFileError] }
  else
    { result := result, file := some result, out := [.saved filename] }

/-! ## MTU discovery -/

/-- One iteration of the send loop of `discoverMTU`. -/
structure SendAttempt where
  /-- The call `msg.Marshal(nil)` succeeds. -/
  marshalOk : Bool
  /-- The call `conn.WriteTo(wb, dst)` succeeds. -/
  writeOk : Bool
deriving DecidableEq, Repr

/-- What the system answers while one candidate size is tested. -/
structure MTUNet where
  /-- The call `pingConn(dst)` succeeds. -/
  connOk : Bool
  /-- The `i`-th iteration of the send loop. -/
  sends : Nat → SendAttempt

/-- The loop `for i := 0; i < 3; i++` of `discoverMTU` from `i` on, with `n`
iterations left: the final value of `success`. -/
def sendLoop (f : Flags) (v4 : Bool) (id : Int) (sends : Nat → SendAttempt) :
    Nat → Nat → Nat → Nat
  | 0, _, success => success
  | n + 1, i, success =>
    match (icmpMsg f v4 id 1).2 with
    | some _ => success
    | none =>
      if !(sends i).marshalOk then success
      else sendLoop f v4 id sends n (i + 1) (if (sends i).writeOk then success + 1 else success)

/-- The effects of `discoverMTU`. -/
structure MTUResult where
  /-- The flags afterwards: `*size` may have changed. -/
  flags : Flags
  /-- The local `maxSuccess`, 0 when no size succeeded. -/
  maxSuccess : Int
  /-- The lines printed. -/
  out : List Line
deriving DecidableEq, Repr

/-- The loop `for _, testSize := range sizes` of `discoverMTU`; `net testSize`
is what the system answers while `testSize` is tested. -/
def mtuLoop (v4 : Bool) (id : Int) (net : Int → MTUNet) : List Int → Flags → Int → MTUResult
  | [], f, maxSuccess => { flags := f, maxSuccess := maxSuccess, out := [] }
  | testSize :: rest, f, maxSuccess =>
    let testDataSize := testSize - 28
    if testDataSize > 1472 then mtuLoop v4 id net rest f maxSuccess
    else
      let oldSize := f.size
      let f := { f with size := testDataSize }
      if !(net testSize).connOk then
        mtuLoop v4 id net rest { f with size := oldSize } maxSuccess
      else
        let success := sendLoop f v4 id (net testSize).sends 3 0 0
        let f := { f with size := oldSize }
        if success = 3 then
          let r := mtuLoop v4 id net rest f testSize
          { r with out := .mtuOK testSize :: r.out }
        else
          { flags := f, maxSuccess := maxSuccess, out := [.mtuFailed testSize success] }

/-- The candidate sizes of `discoverMTU`. -/
def sizes : List Int := [1500, 9000, 12000]

/-- The function `discoverMTU`. -/
def discoverMTU (f : Flags) (v4 : Bool) (id : Int) (net : Int → MTUNet) : MTUResult :=
  let r := mtuLoop v4 id net sizes f 0
  if r.maxSuccess > 0 then
    let f := { r.flags with size := r.maxSuccess - 28 }
    { flags := f
      maxSuccess := r.maxSuccess
      out := .mtuStart :: r.out ++ [.maxMTU r.maxSuccess f.size] }
  else
    { flags := r.flags, maxSuccess := r.maxSuccess, out := .mtuStart :: r.out ++ [.noMTU] }

/-- The checks of `main` on the flags: the message of the first `log.Fatal`
that fires, `none` when the run starts. -/
def checkFlags (f : Flags) : Option String :=
  if f.interval < Millisecond then some "interval must be >= 1ms"
  else if f.size < 0 ∨ f.size > 1472 then some "size must be 0-1472 bytes"
  else if f.ttl < 1 ∨ f.ttl > 255 then some "TTL must be 1-255"
  else none

/-! ## Predicates of the specification -/

/-- The invariant of a run: no more replies than probes, one measurement per
reply, each under a key of its own that is a sequence number already used. -/
def RunInv (s : RunState) : Prop :=
  s.store.PacketsRecv ≤ s.store.PacketsSent ∧
  ((RTTMap.keys s.store.RTTStats).length : Int) = s.store.PacketsRecv ∧
  (RTTMap.keys s.store.RTTStats).Nodup ∧
  ∀ k ∈ RTTMap.keys s.store.RTTStats, k < s.seq

/-- A read the receive loop skips without counting it: a packet read less
than 10 microseconds after the send, or one that does not parse. -/
def ReadResult.skipped : ReadResult → Bool
  | .packet _ rtt parsed => decide (rtt < 10 * Microsecond) || parsed.isNone
  | _ => false

/-- How the probe cycle for `seq` ends when the network behaves as `net`; the
store plays no part in it (`sendAndRecvPing_exit_store`). -/
def cycleExit (f : Flags) (v4 : Bool) (id seq : Int) (net : Net) : Exit :=
  (sendAndRecvPing f v4 id seq net Store.reset).exit

/-- The sum of `|rtts[i] - rtts[i-1]|` for `i` from 1 to `len(rtts) - 1`. -/
def sumAbsDiff (rtts : List Duration) : Int :=
  ((List.range (rtts.length - 1)).map
    (fun i => |rtts.getD (i + 1) 0 - rtts.getD i 0|)).sum

/-- The positive RTTs of a measurement map, in the order of its entries. -/
def positiveRTTs (rtts : RTTMap) : List Duration :=
  (rtts.map Prod.snd).filter (fun r => decide (0 < r))

/-- The locals of `printStats` that `calculateStats` has too. -/
def PrintAcc.toStats (a : PrintAcc) : StatsAcc :=
  { total := a.total, min := a.min, max := a.max, count := a.validRTT }

/-- All three sends of a candidate size succeed. -/
def MTUNet.passes (n : MTUNet) : Bool :=
  ((n.sends 0).marshalOk && (n.sends 0).writeOk) &&
  ((n.sends 1).marshalOk && (n.sends 1).writeOk) &&
  ((n.sends 2).marshalOk && (n.sends 2).writeOk)

/-- The candidates of a menu that `discoverMTU` tests when none before them
fails: those whose payload, the candidate minus 28, is at most 1472 and for
which the transient socket opens. -/
def candidatesTested (net : Int → MTUNet) (menu : List Int) : List Int :=
  menu.filter (fun t => decide (t - 28 ≤ 1472) && (net t).connOk)

/-- The last tested candidate that achieved 3/3 before the first tested
candidate that did not; `m` when there is none. -/
def discovered (net : Int → MTUNet) (menu : List Int) (m : Int) : Int :=
  (((candidatesTested net menu).takeWhile (fun t => (net t).passes)).getLast?).getD m

/-! ## Concrete inputs -/

/-- Flags of a plain ping run: five probes, one millisecond apart. -/
def pingFlags : Flags :=
  { count := 5, interval := Millisecond, size := 56, verbose := false, ttl := 64,
    traceMode := false, output := "" }

/-- A cycle answered by the echo reply of probe `seq` after `rtt`. -/
def replyNet (id seq : Int) (rtt : Duration) : Net :=
  { marshalOk := true, writeOk := true
    reads := [.packet "10.0.0.1" rtt (some (.echo { ID := id, Seq := seq, Data := payload 56 }))] }

/-- A cycle in which nothing arrives before the deadline. -/
def silentNet : Net :=
  { marshalOk := true, writeOk := true, reads := [.timeout] }

/-- A packet that does not parse, read 10 microseconds after the send. -/
def malformed : ReadResult := .packet "10.0.0.9" (10 * Microsecond) none

/-- Flags of a trace run with a ceiling of three hops. -/
def traceFlags : Flags :=
  { count := 0, interval := Second, size := 56, verbose := false, ttl := 3,
    traceMode := true, output := "" }

/-- A path of three hops: the routers at hops 1 and 2 answer TimeExceeded and
the destination, at hop 3, answers the echo request of probe 3. -/
def threeHops (hop : Int) : Net :=
  if hop = 3 then
    { marshalOk := true, writeOk := true
      reads := [.packet "10.0.3.1" 3400000 (some (.echo { ID := 7, Seq := 3, Data := payload 56 }))] }
  else
    { marshalOk := true, writeOk := true
      reads := [.packet "10.0.1.1" 1600000 (some .timeExceeded)] }

/-- The measurements of five probes answered after 1, 2, 3, 4 and 5 ms. -/
def fiveReplies : RTTMap :=
  [(1, 1 * Millisecond), (2, 2 * Millisecond), (3, 3 * Millisecond), (4, 4 * Millisecond),
    (5, 5 * Millisecond)]

/-- A candidate whose socket opens and whose sends all succeed or all fail. -/
def allSends (ok : Bool) : MTUNet :=
  { connOk := true, sends := fun _ => { marshalOk := true, writeOk := ok } }

/-- The scenario of C7: every send succeeds for the candidates 1500 and 9000
and none for 12000. -/
def jumboNet (testSize : Int) : MTUNet :=
  if testSize = 12000 then allSends false else allSends true

/-! ## The probe cycle -/

/-- The function `icmpMsg` never returns an error. -/
theorem icmpMsg_error (f : Flags) (v4 : Bool) (id seq : Int) : (icmpMsg f v4 id seq).2 = none := by
  unfold icmpMsg; split_ifs <;> rfl

/-- One iteration of the receive loop. -/
theorem recvLoop_cons (f : Flags) (id seq : Int) (st : Store) (r : ReadResult)
    (rs : List ReadResult) (rc n : Nat) :
    recvLoop f id seq st (r :: rs) rc n =
      if rc < maxRecvAttempts then
        match r with
        | .timeout => noReply f seq st (n + 1)
        | .failed => noReply f seq st (n + 1)
        | .packet peer rtt parsed =>
          if rtt < 10 * Microsecond then recvLoop f id seq st rs rc (n + 1)
          else
            match parsed with
            | none => recvLoop f id seq st rs rc (n + 1)
            | some .timeExceeded =>
              { store := st
                out := [.hopResponder peer (Round rtt Millisecond)]
                reads := n + 1
                exit := .hopResponder }
            | some (.echo e) =>
              if e.ID = id ∧ e.Seq = seq then recordReply f seq st peer rtt e (n + 1)
              else recvLoop f id seq st rs (rc + 1) (n + 1)
            | some .other => recvLoop f id seq st rs (rc + 1) (n + 1)
      else noReply f seq st n := by
  cases r <;> rfl

/-- Every way the receive loop can end: without a match the store is as it
was, with a match one measurement for `seq` is added. -/
theorem recvLoop_cases (f : Flags) (id seq : Int) (st : Store) (rs : List ReadResult) :
    ∀ rc n,
      (((recvLoop f id seq st rs rc n).exit = .noReply ∨
          (recvLoop f id seq st rs rc n).exit = .hopResponder) ∧
        (recvLoop f id seq st rs rc n).store = st) ∨
      ((recvLoop f id seq st rs rc n).exit = .matched ∧
        ∃ rtt, (recvLoop f id seq st rs rc n).store =
          { st with PacketsRecv := st.PacketsRecv + 1, RTTStats := st.RTTStats.set seq rtt }) := by
  induction rs with
  | nil =>
    intro rc n
    left
    unfold recvLoop
    split_ifs <;> simp [noReply]
  | cons r rs ih =>
    intro rc n
    unfold recvLoop
    split_ifs with h
    · cases r with
      | timeout => left; simp [noReply]
      | failed => left; simp [noReply]
      | packet peer rtt parsed =>
        dsimp only
        split_ifs with h2
        · exact ih _ _
        · cases parsed with
          | none => exact ih _ _
          | some b =>
            cases b with
            | timeExceeded => left; simp
            | other => exact ih _ _
            | echo e =>
              dsimp only
              split_ifs with h3
              · right; exact ⟨rfl, rtt, rfl⟩
              · exact ih _ _
    · left; simp [noReply]

/-- Every way a probe cycle can end, with the store it leaves. -/
theorem sendAndRecvPing_cases (f : Flags) (v4 : Bool) (id seq : Int) (net : Net) (st : Store) :
    ((sendAndRecvPing f v4 id seq net st).exit = .marshalError ∧
        (sendAndRecvPing f v4 id seq net st).store = st) ∨
    (((sendAndRecvPing f v4 id seq net st).exit = .sendError ∨
        (sendAndRecvPing f v4 id seq net st).exit = .noReply ∨
        (sendAndRecvPing f v4 id seq net st).exit = .hopResponder) ∧
        (sendAndRecvPing f v4 id seq net st).store =
          { st with PacketsSent := st.PacketsSent + 1 }) ∨
    ((sendAndRecvPing f v4 id seq net st).exit = .matched ∧
        ∃ rtt, (sendAndRecvPing f v4 id seq net st).store =
          { PacketsSent := st.PacketsSent + 1, PacketsRecv := st.PacketsRecv + 1,
            RTTStats := st.RTTStats.set seq rtt }) := by
  have hmsg := icmpMsg_error f v4 id seq
  unfold sendAndRecvPing
  rw [hmsg]
  dsimp only
  split_ifs with h1 h2
  · left; exact ⟨rfl, rfl⟩
  · right; left; exact ⟨Or.inl rfl, rfl⟩
  · rcases recvLoop_cases f id seq { st with PacketsSent := st.PacketsSent + 1 } net.reads 0 0 with
      ⟨he, hs⟩ | ⟨he, rtt, hs⟩
    · right; left
      refine ⟨?_, hs⟩
      rcases he with he | he
      · exact Or.inr (Or.inl he)
      · exact Or.inr (Or.inr he)
    · right; right
      exact ⟨he, rtt, hs⟩

/-! ## Replies that do not match (C2) -/

/-- The receive loop leaves the store alone when no packet read is the echo
reply with this probe's id and seq. -/
theorem recvLoop_frame (f : Flags) (id seq : Int) (st : Store) (rs : List ReadResult)
    (h : ∀ peer rtt e, ReadResult.packet peer rtt (some (.echo e)) ∈ rs →
      e.ID ≠ id ∨ e.Seq ≠ seq) :
    ∀ rc n, (recvLoop f id seq st rs rc n).store = st := by
  induction rs with
  | nil => intro rc n; unfold recvLoop; split_ifs <;> rfl
  | cons r rs ih =>
    have ih2 := ih (fun peer rtt e he => h peer rtt e (List.mem_cons_of_mem _ he))
    intro rc n
    unfold recvLoop
    split_ifs with h1
    · cases r with
      | timeout => rfl
      | failed => rfl
      | packet peer rtt parsed =>
        dsimp only
        split_ifs with h2
        · exact ih2 _ _
        · cases parsed with
          | none => exact ih2 _ _
          | some b =>
            cases b with
            | timeExceeded => rfl
            | other => exact ih2 _ _
            | echo e =>
              dsimp only
              split_ifs with h3
              · exfalso
                rcases h peer rtt e (List.mem_cons_self _ _) with h4 | h4
                · exact h4 h3.1
                · exact h4 h3.2
              · exact ih2 _ _
    · rfl

/-- C2: a probe cycle in which every packet read parses as an Echo whose ID
differs from `id` or whose Seq differs from `seq` leaves `PacketsRecv` and
`RTTStats` as they were; only `PacketsSent` changes, by the one send. -/
theorem sendAndRecvPing_mismatch_frame (f : Flags) (v4 : Bool) (id seq : Int) (net : Net)
    (st : Store)
    (h : ∀ peer rtt parsed, ReadResult.packet peer rtt parsed ∈ net.reads →
      ∃ e, parsed = some (.echo e) ∧ (e.ID ≠ id ∨ e.Seq ≠ seq)) :
    (sendAndRecvPing f v4 id seq net st).store.PacketsRecv = st.PacketsRecv ∧
    (sendAndRecvPing f v4 id seq net st).store.RTTStats = st.RTTStats ∧
    (sendAndRecvPing f v4 id seq net st).store.PacketsSent =
      (if net.marshalOk then st.PacketsSent + 1 else st.PacketsSent) ∧
    (sendAndRecvPing f v4 id seq net st).exit ≠ .matched := by
  have hmsg := icmpMsg_error f v4 id seq
  have h' : ∀ peer rtt e, ReadResult.packet peer rtt (some (.echo e)) ∈ net.reads →
      e.ID ≠ id ∨ e.Seq ≠ seq := by
    intro peer rtt e he
    obtain ⟨e', he', hne⟩ := h peer rtt _ he
    cases he'
    exact hne
  obtain ⟨mo, wo, reads⟩ := net
  have hs := recvLoop_frame f id seq { st with PacketsSent := st.PacketsSent + 1 } reads h' 0 0
  cases mo <;> cases wo <;> simp [sendAndRecvPing, hmsg, hs]
  intro hm
  rcases recvLoop_cases f id seq { st with PacketsSent := st.PacketsSent + 1 } reads 0 0 with
    ⟨he, _⟩ | ⟨_, rtt, hs2⟩
  · rcases he with he | he <;> rw [he] at hm <;> cases hm
  · rw [hs] at hs2
    have := congrArg Store.PacketsRecv hs2
    simp at this

/-- C2 at a concrete cycle: two echo replies, one with another id and one with
another seq, then the deadline. -/
theorem sendAndRecvPing_mismatch_frame_witness :
    (sendAndRecvPing pingFlags true 7 3
      { marshalOk := true, writeOk := true
        reads := [.packet "10.0.0.1" 900000 (some (.echo { ID := 8, Seq := 3, Data := [] })),
          .packet "10.0.0.1" 950000 (some (.echo { ID := 7, Seq := 2, Data := [] })), .timeout] }
      { PacketsSent := 2, PacketsRecv := 2, RTTStats := [(1, 800000), (2, 700000)] }).store =
      { PacketsSent := 3, PacketsRecv := 2, RTTStats := [(1, 800000), (2, 700000)] } ∧
    (sendAndRecvPing pingFlags true 7 3
      { marshalOk := true, writeOk := true
        reads := [.packet "10.0.0.1" 900000 (some (.echo { ID := 8, Seq := 3, Data := [] })),
          .packet "10.0.0.1" 950000 (some (.echo { ID := 7, Seq := 2, Data := [] })), .timeout] }
      { PacketsSent := 2, PacketsRecv := 2, RTTStats := [(1, 800000), (2, 700000)] }).store.PacketsRecv
      = 2 :=
  ⟨by decide,
    (sendAndRecvPing_mismatch_frame pingFlags true 7 3 _
      { PacketsSent := 2, PacketsRecv := 2, RTTStats := [(1, 800000), (2, 700000)] }
      (by
        intro peer rtt parsed hp
        simp only [List.mem_cons, ReadResult.packet.injEq, List.mem_singleton, reduceCtorEq,
          List.not_mem_nil, or_false] at hp
        rcases hp with ⟨_, _, rfl⟩ | ⟨_, _, rfl⟩
        · exact ⟨_, rfl, Or.inl (by decide)⟩
        · exact ⟨_, rfl, Or.inr (by decide)⟩)).1⟩

/-! ## TimeExceeded replies (C3) -/

/-- Skipped reads in front change nothing but the number of reads. -/
theorem recvLoop_skip (f : Flags) (id seq : Int) (st : Store) (pre rs : List ReadResult)
    (hpre : ∀ r ∈ pre, r.skipped = true) (rc : Nat) (hrc : rc < maxRecvAttempts) :
    ∀ n, recvLoop f id seq st (pre ++ rs) rc n = recvLoop f id seq st rs rc (n + pre.length) := by
  induction pre with
  | nil => intro n; rfl
  | cons r pre ih =>
    intro n
    have ih2 := ih (fun r hr => hpre r (List.mem_cons_of_mem _ hr))
    have hr := hpre r (List.mem_cons_self _ _)
    rw [List.cons_append, recvLoop_cons, if_pos hrc]
    cases r with
    | timeout => simp [ReadResult.skipped] at hr
    | failed => simp [ReadResult.skipped] at hr
    | packet peer rtt parsed =>
      simp only [ReadResult.skipped, Bool.or_eq_true, decide_eq_true_eq,
        Option.isNone_iff_eq_none] at hr
      dsimp only
      split_ifs with h2
      · rw [ih2]; congr 1; simp only [List.length_cons]; omega
      · rcases hr with hr | hr
        · exact absurd hr h2
        · subst hr
          dsimp only
          rw [ih2]; congr 1; simp only [List.length_cons]; omega

/-- C3: when the first packet of a cycle that is read 10 microseconds or more
after the send and parses is a TimeExceeded message, the cycle prints the
responder line and returns at once, whatever `seq`: no timeout marker, and
`PacketsRecv` and `RTTStats` as before. -/
theorem sendAndRecvPing_timeExceeded (f : Flags) (v4 : Bool) (id seq : Int) (net : Net)
    (st : Store) (pre rest : List ReadResult) (peer : String) (rtt : Duration)
    (hm : net.marshalOk = true) (hw : net.writeOk = true)
    (hr : net.reads = pre ++ ReadResult.packet peer rtt (some .timeExceeded) :: rest)
    (hpre : ∀ r ∈ pre, ∃ p t b, r = ReadResult.packet p t b ∧ (t < 10 * Microsecond ∨ b = none))
    (hrtt : 10 * Microsecond ≤ rtt) :
    (sendAndRecvPing f v4 id seq net st).exit = .hopResponder ∧
    (sendAndRecvPing f v4 id seq net st).out = [.hopResponder peer (Round rtt Millisecond)] ∧
    (sendAndRecvPing f v4 id seq net st).store.PacketsRecv = st.PacketsRecv ∧
    (sendAndRecvPing f v4 id seq net st).store.RTTStats = st.RTTStats := by
  have hmsg := icmpMsg_error f v4 id seq
  have hsk : ∀ r ∈ pre, r.skipped = true := by
    intro r hr'
    obtain ⟨p, t, b, rfl, h⟩ := hpre r hr'
    rcases h with h | h
    · simp [ReadResult.skipped, h]
    · simp [ReadResult.skipped, h]
  have h5 : (0 : Nat) < maxRecvAttempts := by decide
  have hloop := recvLoop_skip f id seq { st with PacketsSent := st.PacketsSent + 1 } pre
    (ReadResult.packet peer rtt (some .timeExceeded) :: rest) hsk 0 h5 0
  have hc : sendAndRecvPing f v4 id seq net st =
      recvLoop f id seq { st with PacketsSent := st.PacketsSent + 1 } net.reads 0 0 := by
    simp [sendAndRecvPing, hmsg, hm, hw]
  rw [hc, hr, hloop, recvLoop_cons, if_pos h5]
  simp [if_neg (not_lt.mpr hrtt)]

/-- A stale packet and a malformed one, then the TimeExceeded of a router: the
type of cycle C3 is about, here for probe 41. -/
theorem sendAndRecvPing_timeExceeded_witness :
    (sendAndRecvPing pingFlags true 7 41
      { marshalOk := true, writeOk := true
        reads := [.packet "10.0.0.9" 5000 (some .other), malformed,
          .packet "10.0.0.254" 2400000 (some .timeExceeded), .timeout] }
      { PacketsSent := 40, PacketsRecv := 31, RTTStats := [(1, 1000000)] }).exit = .hopResponder ∧
    (sendAndRecvPing pingFlags true 7 41
      { marshalOk := true, writeOk := true
        reads := [.packet "10.0.0.9" 5000 (some .other), malformed,
          .packet "10.0.0.254" 2400000 (some .timeExceeded), .timeout] }
      { PacketsSent := 40, PacketsRecv := 31, RTTStats := [(1, 1000000)] }).out =
        [.hopResponder "10.0.0.254" 2000000] ∧
    (sendAndRecvPing pingFlags true 7 41
      { marshalOk := true, writeOk := true
        reads := [.packet "10.0.0.9" 5000 (some .other), malformed,
          .packet "10.0.0.254" 2400000 (some .timeExceeded), .timeout] }
      { PacketsSent := 40, PacketsRecv := 31, RTTStats := [(1, 1000000)] }).store.PacketsRecv = 31 ∧
    (sendAndRecvPing pingFlags true 7 41
      { marshalOk := true, writeOk := true
        reads := [.packet "10.0.0.9" 5000 (some .other), malformed,
          .packet "10.0.0.254" 2400000 (some .timeExceeded), .timeout] }
      { PacketsSent := 40, PacketsRecv := 31, RTTStats := [(1, 1000000)] }).store.RTTStats =
        [(1, 1000000)] :=
  sendAndRecvPing_timeExceeded pingFlags true 7 41 _ _
    [.packet "10.0.0.9" 5000 (some .other), malformed] [.timeout] "10.0.0.254" 2400000
    rfl rfl rfl
    (by
      intro r hr
      simp only [List.mem_cons, List.mem_singleton, List.not_mem_nil, or_false] at hr
      rcases hr with rfl | rfl
      · exact ⟨_, _, _, rfl, Or.inl (by decide)⟩
      · exact ⟨_, _, _, rfl, Or.inr rfl⟩)
    (by decide)

/-! ## The number of reads (C10) -/

/-- The number of reads of the receive loop: each skipped read is one, and the
others are at most the attempts left. -/
theorem recvLoop_reads_le (f : Flags) (id seq : Int) (st : Store) (rs : List ReadResult) :
    ∀ rc n, rc ≤ maxRecvAttempts →
      (recvLoop f id seq st rs rc n).reads ≤
        n + (rs.filter ReadResult.skipped).length + (maxRecvAttempts - rc) := by
  induction rs with
  | nil =>
    intro rc n hrc
    unfold recvLoop
    split_ifs with h <;> simp only [noReply, List.filter_nil, List.length_nil] <;> omega
  | cons r rs ih =>
    intro rc n hrc
    unfold recvLoop
    split_ifs with h
    · cases r with
      | timeout => simp only [noReply]; omega
      | failed => simp only [noReply]; omega
      | packet peer rtt parsed =>
        dsimp only
        split_ifs with h2
        · have := ih rc (n + 1) hrc
          have hs : ReadResult.skipped (.packet peer rtt parsed) = true := by
            simp [ReadResult.skipped, h2]
          rw [List.filter_cons_of_pos hs, List.length_cons]
          omega
        · cases parsed with
          | none =>
            have := ih rc (n + 1) hrc
            have hs : ReadResult.skipped (.packet peer rtt none) = true := by
              simp [ReadResult.skipped]
            rw [List.filter_cons_of_pos hs, List.length_cons]
            dsimp only
            omega
          | some b =>
            cases b with
            | timeExceeded => dsimp only; omega
            | other =>
              have := ih (rc + 1) (n + 1) (by omega)
              dsimp only
              have : ((ReadResult.packet peer rtt (some Body.other) :: rs).filter
                  ReadResult.skipped).length ≥ (rs.filter ReadResult.skipped).length := by
                rw [List.filter_cons]; split_ifs <;> simp
              omega
            | echo e =>
              dsimp only
              have hge : ((ReadResult.packet peer rtt (some (Body.echo e)) :: rs).filter
                  ReadResult.skipped).length ≥ (rs.filter ReadResult.skipped).length := by
                rw [List.filter_cons]; split_ifs <;> simp
              split_ifs with h3
              · simp only [recordReply]; omega
              · have := ih (rc + 1) (n + 1) (by omega)
                omega
    · simp only [noReply]; omega

/-- C10 on the code: the reads of one probe cycle are not bounded by 5.  Six
packets that do not parse make the cycle read 7 times; `k` of them make it
read `k + 1` times, because the `continue` of a skipped packet passes over
`recvCount++`.  Only when no read is skipped (every packet is read 10
microseconds or more after the send and parses) are there at most 5. -/
theorem sendAndRecvPing_reads (f : Flags) (v4 : Bool) (id seq : Int) (st : Store) :
    (sendAndRecvPing f v4 id seq
      { marshalOk := true, writeOk := true, reads := List.replicate 6 malformed } st).reads = 7 ∧
    (∀ k : Nat, (sendAndRecvPing f v4 id seq
      { marshalOk := true, writeOk := true, reads := List.replicate k malformed } st).reads
        = k + 1) ∧
    (∀ net : Net, (∀ r ∈ net.reads, r.skipped = false) →
      (sendAndRecvPing f v4 id seq net st).reads ≤ 5) := by
  have hmsg := icmpMsg_error f v4 id seq
  have h5 : (0 : Nat) < maxRecvAttempts := by decide
  have hk : ∀ k : Nat, (sendAndRecvPing f v4 id seq
      { marshalOk := true, writeOk := true, reads := List.replicate k malformed } st).reads
        = k + 1 := by
    intro k
    have hsk : ∀ r ∈ List.replicate k malformed, r.skipped = true := by
      intro r hr
      rw [List.eq_of_mem_replicate hr]
      rfl
    have := recvLoop_skip f id seq { st with PacketsSent := st.PacketsSent + 1 }
      (List.replicate k malformed) [] hsk 0 h5 0
    rw [List.append_nil] at this
    simp only [sendAndRecvPing, hmsg, Bool.not_true, Bool.false_eq_true, if_false, this,
      recvLoop, if_pos h5, noReply, List.length_replicate]
    omega
  refine ⟨hk 6, hk, ?_⟩
  intro net hnet
  have hf : net.reads.filter ReadResult.skipped = [] := by
    rw [List.filter_eq_nil_iff]
    intro r hr
    simp [hnet r hr]
  have := recvLoop_reads_le f id seq { st with PacketsSent := st.PacketsSent + 1 } net.reads 0 0
    (Nat.zero_le _)
  rw [hf] at this
  simp only [List.length_nil, maxRecvAttempts] at this
  unfold sendAndRecvPing
  rw [hmsg]
  dsimp only
  split_ifs
  · exact Nat.zero_le _
  · exact Nat.zero_le _
  · omega

/-! ## The invariant of a run (C1) -/

/-- The keys of a map after the assignment of a key it did not have. -/
theorem RTTMap.keys_set_of_not_mem (m : RTTMap) (k : Int) (v : Duration)
    (h : k ∉ RTTMap.keys m) : RTTMap.keys (RTTMap.set m k v) = RTTMap.keys m ++ [k] := by
  induction m with
  | nil => rfl
  | cons e m ih =>
    have h1 : e.1 ≠ k := by
      intro he; apply h; simp [RTTMap.keys, he]
    have h2 : k ∉ RTTMap.keys m := by
      intro hk; apply h; simp only [RTTMap.keys, List.map_cons, List.mem_cons]; right
      simpa [RTTMap.keys] using hk
    simp only [RTTMap.set, if_neg h1]
    show e.1 :: RTTMap.keys (RTTMap.set m k v) = e.1 :: RTTMap.keys m ++ [k]
    rw [ih h2]; rfl

/-- The index expression finds exactly the keys. -/
theorem RTTMap.has_iff (m : RTTMap) (k : Int) : RTTMap.has m k = true ↔ k ∈ RTTMap.keys m := by
  simp only [RTTMap.has, RTTMap.keys, List.any_eq_true, beq_iff_eq, List.mem_map]

/-- A key just assigned is in the map. -/
theorem RTTMap.has_set_self (m : RTTMap) (k : Int) (v : Duration) :
    RTTMap.has (RTTMap.set m k v) k = true := by
  induction m with
  | nil => simp [RTTMap.set, RTTMap.has]
  | cons e m ih =>
    unfold RTTMap.set
    split_ifs with h
    · simp [RTTMap.has]
    · simp only [RTTMap.has, List.any_cons, Bool.or_eq_true] at ih ⊢
      right; exact ih

/-- The reset store with `seq = 1` satisfies the invariant. -/
theorem RunInv_reset : RunInv { store := Store.reset, seq := 1 } := by
  simp [RunInv, Store.reset, RTTMap.keys]

/-- One probe cycle followed by `seq++` keeps the invariant. -/
theorem RunInv_step (f : Flags) (v4 : Bool) (id : Int) (net : Net) (s : RunState)
    (h : RunInv s) :
    RunInv { store := (sendAndRecvPing f v4 id s.seq net s.store).store, seq := s.seq + 1 } := by
  obtain ⟨h1, h2, h3, h4⟩ := h
  rcases sendAndRecvPing_cases f v4 id s.seq net s.store with
    ⟨_, hs⟩ | ⟨_, hs⟩ | ⟨_, rtt, hs⟩
  · rw [hs]
    exact ⟨h1, h2, h3, fun k hk => by have := h4 k hk; dsimp only; omega⟩
  · rw [hs]
    exact ⟨by dsimp only; omega, h2, h3, fun k hk => by have := h4 k hk; dsimp only; omega⟩
  · rw [hs]
    have hn : s.seq ∉ RTTMap.keys s.store.RTTStats := fun hk => by
      have := h4 _ hk; omega
    have hk := RTTMap.keys_set_of_not_mem s.store.RTTStats s.seq rtt hn
    refine ⟨by dsimp only; omega, ?_, ?_, ?_⟩
    · dsimp only; rw [hk]; simp only [List.length_append, List.length_singleton]; push_cast; omega
    · dsimp only; rw [hk]
      rw [List.nodup_append]
      refine ⟨h3, List.nodup_singleton _, ?_⟩
      intro a ha hb
      simp only [List.mem_singleton] at hb
      subst hb; exact hn ha
    · intro k hk2
      dsimp only at hk2 ⊢
      rw [hk] at hk2
      simp only [List.mem_append, List.mem_singleton] at hk2
      rcases hk2 with hk2 | hk2
      · have := h4 k hk2; omega
      · omega

/-- Every state `runPing` passes through satisfies the invariant. -/
theorem runPing_inv (f : Flags) (v4 : Bool) (id : Int) (nets : List Net) :
    ∀ s, RunInv s → ∀ s' ∈ runPing f v4 id nets s, RunInv s' := by
  induction nets with
  | nil => intro s _ s' hs'; simp [runPing] at hs'
  | cons net nets ih =>
    intro s hs s' hs'
    unfold runPing at hs'
    split_ifs at hs' with hc
    · simp only [List.mem_cons] at hs'
      rcases hs' with rfl | hs'
      · exact RunInv_step f v4 id net s hs
      · exact ih _ (RunInv_step f v4 id net s hs) s' hs'
    · simp at hs'

/-- Every state the hop loop passes through satisfies the invariant. -/
theorem traceLoop_inv (f : Flags) (v4 : Bool) (id : Int) (net : Int → Net) (maxHops : Int) :
    ∀ n hop s, RunInv s → ∀ h ∈ (traceLoop f v4 id net maxHops n hop s).hops, RunInv h.2 := by
  intro n
  induction n with
  | zero => intro hop s _ h hh; simp [traceLoop] at hh
  | succ n ih =>
    intro hop s hs h hh
    unfold traceLoop at hh
    split_ifs at hh with hc
    · dsimp only at hh
      split_ifs at hh with hd
      · simp only [List.mem_singleton] at hh
        subst hh
        exact RunInv_step f v4 id (net hop) s hs
      · simp only [List.mem_cons] at hh
        rcases hh with rfl | hh
        · exact RunInv_step f v4 id (net hop) s hs
        · exact ih _ _ (RunInv_step f v4 id (net hop) s hs) h hh
    · simp at hh

/-- C1: in every run of `runPing` or `runTraceroute` from the reset store with
`seq = 1`, whatever the network answers, the store after each probe cycle has
`PacketsRecv ≤ PacketsSent` and as many keys in `RTTStats` (all distinct) as
`PacketsRecv`. -/
theorem run_store_invariant (f : Flags) (v4 : Bool) (id : Int) :
    (∀ nets : List Net, ∀ s ∈ runPing f v4 id nets { store := Store.reset, seq := 1 },
      s.store.PacketsRecv ≤ s.store.PacketsSent ∧
      (RTTMap.keys s.store.RTTStats).Nodup ∧
      ((RTTMap.keys s.store.RTTStats).length : Int) = s.store.PacketsRecv) ∧
    (∀ net : Int → Net,
      ∀ h ∈ (runTraceroute f v4 id net { store := Store.reset, seq := 1 }).hops,
      h.2.store.PacketsRecv ≤ h.2.store.PacketsSent ∧
      (RTTMap.keys h.2.store.RTTStats).Nodup ∧
      ((RTTMap.keys h.2.store.RTTStats).length : Int) = h.2.store.PacketsRecv) := by
  constructor
  · intro nets s hs
    obtain ⟨h1, h2, h3, _⟩ := runPing_inv f v4 id nets _ RunInv_reset s hs
    exact ⟨h1, h3, h2⟩
  · intro net h hh
    obtain ⟨h1, h2, h3, _⟩ := traceLoop_inv f v4 id net f.ttl f.ttl.toNat 1 _ RunInv_reset h hh
    exact ⟨h1, h3, h2⟩

/-- A run of three cycles (reply, silence, reply) passes through the stores
with 1/1, 2/1 and 3/2 packets sent/received, and each satisfies C1. -/
theorem run_store_invariant_witness :
    (runPing pingFlags true 7 [replyNet 7 1 2000000, silentNet, replyNet 7 3 4000000]
        { store := Store.reset, seq := 1 }).map
      (fun s => (s.store.PacketsSent, s.store.PacketsRecv, RTTMap.keys s.store.RTTStats)) =
      [(1, 1, [1]), (2, 1, [1]), (3, 2, [1, 3])] ∧
    ∀ s ∈ runPing pingFlags true 7 [replyNet 7 1 2000000, silentNet, replyNet 7 3 4000000]
        { store := Store.reset, seq := 1 },
      s.store.PacketsRecv ≤ s.store.PacketsSent ∧
      (RTTMap.keys s.store.RTTStats).Nodup ∧
      ((RTTMap.keys s.store.RTTStats).length : Int) = s.store.PacketsRecv :=
  ⟨by decide, (run_store_invariant pingFlags true 7).1 _⟩

/-! ## The trace mode (C9) -/

/-- The way the receive loop ends and what it prints depend on neither the
store nor the number of reads made before. -/
theorem recvLoop_exit_store (f : Flags) (id seq : Int) (st st' : Store)
    (rs : List ReadResult) :
    ∀ rc n n', (recvLoop f id seq st rs rc n).exit = (recvLoop f id seq st' rs rc n').exit ∧
      (recvLoop f id seq st rs rc n).out = (recvLoop f id seq st' rs rc n').out := by
  induction rs with
  | nil => intro rc n n'; unfold recvLoop; split_ifs <;> exact ⟨rfl, rfl⟩
  | cons r rs ih =>
    intro rc n n'
    rw [recvLoop_cons, recvLoop_cons]
    split_ifs with h
    · cases r with
      | timeout => exact ⟨rfl, rfl⟩
      | failed => exact ⟨rfl, rfl⟩
      | packet peer rtt parsed =>
        dsimp only
        split_ifs with h2
        · exact ih _ _ _
        · cases parsed with
          | none => exact ih _ _ _
          | some b =>
            cases b with
            | timeExceeded => exact ⟨rfl, rfl⟩
            | other => exact ih _ _ _
            | echo e =>
              dsimp only
              split_ifs with h3
              · exact ⟨rfl, rfl⟩
              · exact ih _ _ _
    · exact ⟨rfl, rfl⟩

/-- The way a probe cycle ends does not depend on the store. -/
theorem sendAndRecvPing_exit_store (f : Flags) (v4 : Bool) (id seq : Int) (net : Net)
    (st : Store) : (sendAndRecvPing f v4 id seq net st).exit = cycleExit f v4 id seq net := by
  unfold cycleExit sendAndRecvPing
  split
  · rfl
  · dsimp only
    split_ifs
    · rfl
    · rfl
    · exact (recvLoop_exit_store f id seq _ _ net.reads 0 0 0).1

/-- The receive loop never prints the destination marker. -/
theorem recvLoop_out (f : Flags) (id seq : Int) (st : Store) (rs : List ReadResult) :
    ∀ rc n, Line.dest ∉ (recvLoop f id seq st rs rc n).out := by
  induction rs with
  | nil => intro rc n; unfold recvLoop noReply; split_ifs <;> simp
  | cons r rs ih =>
    intro rc n
    rw [recvLoop_cons]
    split_ifs with h
    · cases r with
      | timeout => unfold noReply; dsimp only; split_ifs <;> simp
      | failed => unfold noReply; dsimp only; split_ifs <;> simp
      | packet peer rtt parsed =>
        dsimp only
        split_ifs with h2
        · exact ih _ _
        · cases parsed with
          | none => exact ih _ _
          | some b =>
            cases b with
            | timeExceeded => simp
            | other => exact ih _ _
            | echo e =>
              dsimp only
              split_ifs with h3
              · unfold recordReply; dsimp only; split_ifs <;> simp
              · exact ih _ _
    · unfold noReply; dsimp only; split_ifs <;> simp

/-- A probe cycle never prints the destination marker. -/
theorem sendAndRecvPing_out (f : Flags) (v4 : Bool) (id seq : Int) (net : Net) (st : Store) :
    Line.dest ∉ (sendAndRecvPing f v4 id seq net st).out := by
  unfold sendAndRecvPing
  split
  · simp
  · dsimp only
    split_ifs
    · simp
    · simp
    · exact recvLoop_out f id seq _ net.reads 0 0

/-- In a run, the test `RTTStats[*seq-1]` of `runTraceroute` after a cycle
succeeds exactly when the cycle recorded its reply. -/
theorem has_after_cycle (f : Flags) (v4 : Bool) (id : Int) (net : Net) (s : RunState)
    (h : RunInv s) :
    RTTMap.has (sendAndRecvPing f v4 id s.seq net s.store).store.RTTStats (s.seq + 1 - 1) = true ↔
      cycleExit f v4 id s.seq net = .matched := by
  rw [← sendAndRecvPing_exit_store f v4 id s.seq net s.store]
  have hseq : s.seq + 1 - 1 = s.seq := by omega
  rw [hseq]
  have hn : ¬ RTTMap.has s.store.RTTStats s.seq = true := by
    rw [RTTMap.has_iff]
    intro hk
    have := h.2.2.2 _ hk
    omega
  rcases sendAndRecvPing_cases f v4 id s.seq net s.store with
    ⟨he, hs⟩ | ⟨he, hs⟩ | ⟨he, rtt, hs⟩
  · rw [hs, he]; simp [hn]
  · rw [hs]
    constructor
    · intro hh; exact absurd hh hn
    · intro hm; rcases he with he | he | he <;> rw [he] at hm <;> cases hm
  · rw [hs, he]
    simp [RTTMap.has_set_self]

/-- One iteration of the hop loop whose probe is matched: the loop ends. -/
theorem traceLoop_matched (f : Flags) (v4 : Bool) (id : Int) (net : Int → Net) (maxHops : Int)
    (n : Nat) (hop : Int) (s : RunState) (hle : hop ≤ maxHops) (hs : RunInv s)
    (hm : cycleExit f v4 id s.seq (net hop) = .matched) :
    traceLoop f v4 id net maxHops (n + 1) hop s =
      { state := { store := (sendAndRecvPing f v4 id s.seq (net hop) s.store).store,
                   seq := s.seq + 1 }
        out := .hopNumber hop :: (sendAndRecvPing f v4 id s.seq (net hop) s.store).out ++ [.dest]
        hops := [(hop, { store := (sendAndRecvPing f v4 id s.seq (net hop) s.store).store,
                         seq := s.seq + 1 })]
        reached := true } := by
  rw [traceLoop, if_pos hle]
  dsimp only
  rw [if_pos ((has_after_cycle f v4 id (net hop) s hs).mpr hm)]

/-- One iteration of the hop loop whose probe is not matched: the loop goes on
with the next hop. -/
theorem traceLoop_unmatched (f : Flags) (v4 : Bool) (id : Int) (net : Int → Net)
    (maxHops : Int) (n : Nat) (hop : Int) (s : RunState) (hle : hop ≤ maxHops) (hs : RunInv s)
    (hm : cycleExit f v4 id s.seq (net hop) ≠ .matched) :
    traceLoop f v4 id net maxHops (n + 1) hop s =
      { state := (traceLoop f v4 id net maxHops n (hop + 1)
          { store := (sendAndRecvPing f v4 id s.seq (net hop) s.store).store,
            seq := s.seq + 1 }).state
        out := .hopNumber hop :: (sendAndRecvPing f v4 id s.seq (net hop) s.store).out ++
          .newline :: (traceLoop f v4 id net maxHops n (hop + 1)
            { store := (sendAndRecvPing f v4 id s.seq (net hop) s.store).store,
              seq := s.seq + 1 }).out
        hops := (hop, { store := (sendAndRecvPing f v4 id s.seq (net hop) s.store).store,
                        seq := s.seq + 1 }) ::
          (traceLoop f v4 id net maxHops n (hop + 1)
            { store := (sendAndRecvPing f v4 id s.seq (net hop) s.store).store,
              seq := s.seq + 1 }).hops
        reached := (traceLoop f v4 id net maxHops n (hop + 1)
          { store := (sendAndRecvPing f v4 id s.seq (net hop) s.store).store,
            seq := s.seq + 1 }).reached } := by
  rw [traceLoop, if_pos hle]
  dsimp only
  rw [if_neg (fun h => hm ((has_after_cycle f v4 id (net hop) s hs).mp h))]

/-- The hop loop from hop `m + 1` on, with `n` hops to the ceiling: it ends
after the first hop whose probe is matched, and after the last hop otherwise. -/
theorem traceLoop_spec (f : Flags) (v4 : Bool) (id : Int) (net : Int → Net) (maxHops : Int) :
    ∀ (n m : Nat) (s : RunState), RunInv s → s.seq = (m : Int) + 1 →
      ((m + n : Nat) : Int) = maxHops →
      (∀ k : Nat, m < k → k ≤ m + n →
        (∀ j : Nat, m < j → j < k → cycleExit f v4 id j (net j) ≠ .matched) →
        cycleExit f v4 id k (net k) = .matched →
        (traceLoop f v4 id net maxHops n ((m : Int) + 1) s).reached = true ∧
        (traceLoop f v4 id net maxHops n ((m : Int) + 1) s).hops.map Prod.fst =
          (List.range' (m + 1) (k - m)).map Int.ofNat ∧
        ∃ pre, (traceLoop f v4 id net maxHops n ((m : Int) + 1) s).out = pre ++ [Line.dest]) ∧
      ((∀ j : Nat, m < j → j ≤ m + n → cycleExit f v4 id j (net j) ≠ .matched) →
        (traceLoop f v4 id net maxHops n ((m : Int) + 1) s).reached = false ∧
        (traceLoop f v4 id net maxHops n ((m : Int) + 1) s).hops.map Prod.fst =
          (List.range' (m + 1) n).map Int.ofNat ∧
        Line.dest ∉ (traceLoop f v4 id net maxHops n ((m : Int) + 1) s).out) := by
  intro n
  induction n with
  | zero =>
    intro m s _ _ _
    constructor
    · intro k h1 h2; omega
    · intro _; simp [traceLoop]
  | succ n ih =>
    intro m s hs hseq hmax
    have hle : (m : Int) + 1 ≤ maxHops := by rw [← hmax]; push_cast; omega
    have hstep := RunInv_step f v4 id (net ((m : Int) + 1)) s hs
    have hcast : ((m + 1 : Nat) : Int) = (m : Int) + 1 := by push_cast; rfl
    have hnodest := sendAndRecvPing_out f v4 id s.seq (net ((m : Int) + 1)) s.store
    by_cases hm : cycleExit f v4 id ((m : Int) + 1) (net ((m : Int) + 1)) = .matched
    · rw [traceLoop_matched f v4 id net maxHops n _ s hle hs (by rw [hseq]; exact hm)]
      dsimp only
      constructor
      · intro k h1 h2 hj hk
        have hk1 : k = m + 1 := by
          by_contra hne
          have := hj (m + 1) (by omega) (by omega)
          rw [hcast] at this
          exact this hm
        subst hk1
        refine ⟨rfl, ?_, ⟨_, (List.cons_append _ _ _).symm⟩⟩
        simp
      · intro hj
        have := hj (m + 1) (by omega) (by omega)
        rw [hcast] at this
        exact absurd hm this
    · rw [traceLoop_unmatched f v4 id net maxHops n _ s hle hs (by rw [hseq]; exact hm)]
      dsimp only
      have ih2 := ih (m + 1)
        { store := (sendAndRecvPing f v4 id s.seq (net ((m : Int) + 1)) s.store).store,
          seq := s.seq + 1 } hstep (by dsimp only; rw [hseq, hcast])
        (by rw [← hmax]; push_cast; omega)
      rw [hcast] at ih2
      obtain ⟨iha, ihb⟩ := ih2
      constructor
      · intro k h1 h2 hj hk
        have hk1 : k ≠ m + 1 := by
          rintro rfl
          rw [hcast] at hk
          exact hm hk
        obtain ⟨hr, hh, pre, hout⟩ := iha k (by omega) (by omega)
          (fun j hj1 hj2 => hj j (by omega) hj2) hk
        refine ⟨hr, ?_, ?_⟩
        · rw [List.map_cons, hh]
          have : k - m = (k - (m + 1)) + 1 := by omega
          rw [this, List.range'_succ, List.map_cons]
          simp
        · rw [hout]
          exact ⟨Line.hopNumber ((m : Int) + 1) ::
            ((sendAndRecvPing f v4 id s.seq (net ((m : Int) + 1)) s.store).out ++
              Line.newline :: pre), by simp⟩
      · intro hj
        obtain ⟨hr, hh, hout⟩ := ihb (fun j hj1 hj2 => hj j (by omega) (by omega))
        refine ⟨hr, ?_, ?_⟩
        · rw [List.map_cons, hh, List.range'_succ, List.map_cons]
          simp
        · simp only [List.mem_cons, List.mem_append, reduceCtorEq, false_or, not_or]
          exact ⟨hnodest, hout⟩

/-- C9: with a ceiling `*ttl ≥ 1`, from the reset store, `runTraceroute`
probes hops 1, 2, ... in order (hop `j` with `seq = j`); it stops right after
the first hop `k` whose probe is matched, with the marker " DEST!" as the last
thing printed before the final newline, and when no hop up to the ceiling
is matched it probes all of them and prints no marker. -/
theorem runTraceroute_hops (f : Flags) (v4 : Bool) (id : Int) (net : Int → Net)
    (h : 1 ≤ f.ttl) :
    (∀ k : Nat, 1 ≤ k → (k : Int) ≤ f.ttl →
      (∀ j : Nat, 1 ≤ j → j < k → cycleExit f v4 id j (net j) ≠ .matched) →
      cycleExit f v4 id k (net k) = .matched →
      (runTraceroute f v4 id net { store := Store.reset, seq := 1 }).reached = true ∧
      (runTraceroute f v4 id net { store := Store.reset, seq := 1 }).hops.map Prod.fst =
        (List.range' 1 k).map Int.ofNat ∧
      ∃ pre, (runTraceroute f v4 id net { store := Store.reset, seq := 1 }).out =
        pre ++ [Line.dest, Line.newline]) ∧
    ((∀ j : Nat, 1 ≤ j → (j : Int) ≤ f.ttl → cycleExit f v4 id j (net j) ≠ .matched) →
      (runTraceroute f v4 id net { store := Store.reset, seq := 1 }).reached = false ∧
      (runTraceroute f v4 id net { store := Store.reset, seq := 1 }).hops.map Prod.fst =
        (List.range' 1 f.ttl.toNat).map Int.ofNat ∧
      Line.dest ∉ (runTraceroute f v4 id net { store := Store.reset, seq := 1 }).out) := by
  have hn : ((0 + f.ttl.toNat : Nat) : Int) = f.ttl := by
    rw [Nat.zero_add]; exact Int.toNat_of_nonneg (by omega)
  obtain ⟨ha, hb⟩ := traceLoop_spec f v4 id net f.ttl f.ttl.toNat 0
    { store := Store.reset, seq := 1 } RunInv_reset rfl hn
  simp only [Nat.cast_zero, zero_add, Nat.sub_zero] at ha hb
  unfold runTraceroute
  dsimp only
  constructor
  · intro k h1 h2 hj hk
    obtain ⟨hr, hh, pre, hout⟩ := ha k (by omega) (by omega) (fun j hj1 hj2 => hj j (by omega) hj2) hk
    refine ⟨hr, hh, ⟨Line.traceHeader f.ttl :: pre, ?_⟩⟩
    rw [hout]; simp
  · intro hj
    obtain ⟨hr, hh, hout⟩ := hb (fun j hj1 hj2 => hj j (by omega) (by omega))
    refine ⟨hr, hh, ?_⟩
    simp only [List.mem_cons, List.mem_append, reduceCtorEq, false_or, List.mem_singleton,
      or_false, List.not_mem_nil]
    exact hout

/-- The scenario of C9: ceiling 3, TimeExceeded at hops 1 and 2, the echo
reply at hop 3.  Exactly the hops 1, 2, 3 are probed and the third line ends
with the destination marker. -/
theorem runTraceroute_hops_witness :
    (runTraceroute traceFlags true 7 threeHops { store := Store.reset, seq := 1 }).reached = true ∧
    (runTraceroute traceFlags true 7 threeHops { store := Store.reset, seq := 1 }).hops.map
      Prod.fst = [1, 2, 3] ∧
    (runTraceroute traceFlags true 7 threeHops { store := Store.reset, seq := 1 }).out =
      [.traceHeader 3,
       .hopNumber 1, .hopResponder "10.0.1.1" 2000000, .newline,
       .hopNumber 2, .hopResponder "10.0.1.1" 2000000, .newline,
       .hopNumber 3, .traceReply "10.0.3.1" 3000000, .dest, .newline] := by
  have h := (runTraceroute_hops traceFlags true 7 threeHops (by decide)).1 3 (by decide)
    (by decide)
    (by
      intro j h1 h2
      have hj : j = 1 ∨ j = 2 := by omega
      rcases hj with rfl | rfl <;> decide)
    (by decide)
  exact ⟨h.1, h.2.1, by decide⟩

/-! ## Jitter (C6) -/

/-- An exact result within the `int64` range is not changed by the wrap. -/
theorem wrap64_of_range (x : Int) (h1 : -9223372036854775808 ≤ x)
    (h2 : x < 9223372036854775808) : wrap64 x = x := by
  unfold wrap64
  omega

/-- The sum of the absolute differences, one element further. -/
theorem sumAbsDiff_cons (a b : Duration) (xs : List Duration) :
    sumAbsDiff (a :: b :: xs) = |b - a| + sumAbsDiff (b :: xs) := by
  unfold sumAbsDiff
  simp only [List.length_cons, Nat.add_sub_cancel]
  rw [List.range_succ_eq_map, List.map_cons, List.sum_cons, List.map_map]
  rfl

/-- The sum of absolute differences is not negative. -/
theorem sumAbsDiff_nonneg (rtts : List Duration) : 0 ≤ sumAbsDiff rtts := by
  unfold sumAbsDiff
  apply List.sum_nonneg
  intro x hx
  simp only [List.mem_map, List.mem_range] at hx
  obtain ⟨i, _, rfl⟩ := hx
  exact abs_nonneg _

/-- The loop of `calculateJitter` adds the absolute differences of
consecutive elements to `totalDiff`, as long as the total stays below
`2^63`. -/
theorem jitterLoop_eq (xs : List Duration) :
    ∀ prev totalDiff, 0 ≤ totalDiff →
      totalDiff + sumAbsDiff (prev :: xs) < 9223372036854775808 →
      jitterLoop prev xs totalDiff = totalDiff + sumAbsDiff (prev :: xs) := by
  induction xs with
  | nil => intro prev totalDiff _ _; simp [jitterLoop, sumAbsDiff]
  | cons x xs ih =>
    intro prev totalDiff h0 hb
    rw [sumAbsDiff_cons] at hb ⊢
    have hs := sumAbsDiff_nonneg (x :: xs)
    have habs : 0 ≤ |x - prev| := abs_nonneg _
    have hlt : |x - prev| < 9223372036854775808 := by linarith
    obtain ⟨hl, hu⟩ := abs_lt.mp hlt
    have hd : wrap64 (x - prev) = x - prev := wrap64_of_range _ (by linarith) hu
    have hif : (if wrap64 (x - prev) < 0 then wrap64 (-wrap64 (x - prev))
        else wrap64 (x - prev)) = |x - prev| := by
      rw [hd]
      split_ifs with h
      · rw [abs_of_neg h]
        exact wrap64_of_range _ (by linarith) (by linarith)
      · rw [abs_of_nonneg (not_lt.mp h)]
    have ht : wrap64 (totalDiff + |x - prev|) = totalDiff + |x - prev| :=
      wrap64_of_range _ (by linarith) (by linarith)
    rw [jitterLoop, hif, ht, ih x (totalDiff + |x - prev|) (by linarith) (by linarith)]
    ring

/-- C6 as the code has it: `calculateJitter` returns 0 for a list of fewer
than two RTTs, and the divisor `len - 1` is not zero when the division is made;
when the sum of `|rtts[i] - rtts[i-1]|`, `i = 1..len-1`, is below `2^63`
nanoseconds the result is that sum divided with integer division by
`len - 1`, and it is not negative. -/
theorem calculateJitter_spec (rtts : List Duration) :
    (rtts.length < 2 → calculateJitter rtts = 0) ∧
    (2 ≤ rtts.length → (rtts.length : Int) - 1 ≠ 0) ∧
    (2 ≤ rtts.length → sumAbsDiff rtts < 9223372036854775808 →
      calculateJitter rtts = Int.tdiv (sumAbsDiff rtts) ((rtts.length : Int) - 1) ∧
      calculateJitter rtts = sumAbsDiff rtts / ((rtts.length : Int) - 1)) ∧
    (sumAbsDiff rtts < 9223372036854775808 → 0 ≤ calculateJitter rtts) := by
  have hdiv : 2 ≤ rtts.length → sumAbsDiff rtts < 9223372036854775808 →
      calculateJitter rtts = Int.tdiv (sumAbsDiff rtts) ((rtts.length : Int) - 1) := by
    intro h hb
    unfold calculateJitter
    rw [if_neg (by omega)]
    cases rtts with
    | nil => simp at h
    | cons r rest =>
      dsimp only
      rw [jitterLoop_eq rest r 0 (le_refl _) (by rw [zero_add]; exact hb), zero_add]
  have hpos : 2 ≤ rtts.length → (0 : Int) ≤ (rtts.length : Int) - 1 := by
    intro h; omega
  refine ⟨?_, ?_, ?_, ?_⟩
  · intro h
    unfold calculateJitter
    rw [if_pos h]
  · intro h; omega
  · intro h hb
    refine ⟨hdiv h hb, ?_⟩
    rw [hdiv h hb, Int.tdiv_eq_ediv (sumAbsDiff_nonneg rtts) (hpos h)]
  · intro hb
    by_cases h : 2 ≤ rtts.length
    · rw [hdiv h hb, Int.tdiv_eq_ediv (sumAbsDiff_nonneg rtts) (hpos h)]
      exact Int.ediv_nonneg (sumAbsDiff_nonneg rtts) (hpos h)
    · unfold calculateJitter
      rw [if_pos (by omega)]

/-- C6 as stated fails: for the RTTs `MaxInt64`, 1, `MaxInt64` the two
differences add up to `2^64 - 4`, which wraps to -4, and `calculateJitter`
returns -2: a negative result, not the sum of the absolute differences
divided by 2. -/
theorem calculateJitter_wraps :
    calculateJitter [9223372036854775807, 1, 9223372036854775807] = -2 ∧
    ¬ (0 ≤ calculateJitter [9223372036854775807, 1, 9223372036854775807]) ∧
    sumAbsDiff [9223372036854775807, 1, 9223372036854775807] / (((3 : Nat) : Int) - 1) =
      9223372036854775806 := by
  decide

/-- C6 on three samples of 1 ms, 4 ms and 2 ms: the differences 3 ms and 2 ms
give a jitter of 2.5 ms. -/
theorem calculateJitter_spec_witness :
    calculateJitter [1000000, 4000000, 2000000] = 2500000 ∧
    calculateJitter [1000000] = 0 ∧
    calculateJitter [] = 0 ∧
    sumAbsDiff [1000000, 4000000, 2000000] < 9223372036854775808 ∧
    calculateJitter [1000000, 4000000, 2000000] =
      sumAbsDiff [1000000, 4000000, 2000000] / (((3 : Nat) : Int) - 1) :=
  ⟨by decide, by decide, by decide, by decide,
    ((calculateJitter_spec [1000000, 4000000, 2000000]).2.2.1 (by decide) (by decide)).2⟩

/-! ## Minimum, average and maximum (C5) -/

/-- The positive RTTs of a map that starts with a positive RTT. -/
theorem positiveRTTs_cons_pos (k : Int) (rtt : Duration) (l : RTTMap) (h : rtt > 0) :
    positiveRTTs ((k, rtt) :: l) = rtt :: positiveRTTs l := by
  simp [positiveRTTs, List.filter_cons, h]

/-- The positive RTTs of a map that starts with an RTT that is not positive. -/
theorem positiveRTTs_cons_neg (k : Int) (rtt : Duration) (l : RTTMap) (h : ¬ rtt > 0) :
    positiveRTTs ((k, rtt) :: l) = positiveRTTs l := by
  simp [positiveRTTs, List.filter_cons, h]

/-- The loop of `calculateStats` at an entry with a positive RTT. -/
theorem statsLoop_cons_pos (k : Int) (rtt : Duration) (l : RTTMap) (a : StatsAcc)
    (h : rtt > 0) :
    statsLoop ((k, rtt) :: l) a = statsLoop l
      { total := wrap64 (a.total + rtt)
        min := if a.count = 0 ∨ rtt < a.min then rtt else a.min
        max := if a.count = 0 ∨ rtt > a.max then rtt else a.max
        count := a.count + 1 } := by
  rw [statsLoop, if_pos h]

/-- The loop of `calculateStats` at an entry without a positive RTT. -/
theorem statsLoop_cons_neg (k : Int) (rtt : Duration) (l : RTTMap) (a : StatsAcc)
    (h : ¬ rtt > 0) : statsLoop ((k, rtt) :: l) a = statsLoop l a := by
  rw [statsLoop, if_neg h]

/-- Wrapping an intermediate sum does not change the wrapped total. -/
theorem wrap64_add_wrap64 (x y : Int) : wrap64 (wrap64 x + y) = wrap64 (x + y) := by
  unfold wrap64
  omega

/-- The loop of `calculateStats` adds up the positive RTTs in `int64`
arithmetic and counts them. -/
theorem statsLoop_total_count (l : RTTMap) :
    ∀ a : StatsAcc, wrap64 a.total = a.total →
      (statsLoop l a).total = wrap64 (a.total + (positiveRTTs l).sum) ∧
      (statsLoop l a).count = a.count + (positiveRTTs l).length := by
  induction l with
  | nil => intro a ha; simp [statsLoop, positiveRTTs, ha]
  | cons e l ih =>
    intro a ha
    obtain ⟨k, rtt⟩ := e
    by_cases h : rtt > 0
    · rw [statsLoop_cons_pos k rtt l a h, positiveRTTs_cons_pos k rtt l h]
      obtain ⟨h1, h2⟩ := ih
        { total := wrap64 (a.total + rtt)
          min := if a.count = 0 ∨ rtt < a.min then rtt else a.min
          max := if a.count = 0 ∨ rtt > a.max then rtt else a.max
          count := a.count + 1 } (by dsimp only; unfold wrap64; omega)
      rw [h1, h2]
      dsimp only
      rw [wrap64_add_wrap64]
      simp only [List.sum_cons, List.length_cons]
      push_cast
      constructor
      · congr 1; ring
      · ring
    · rw [statsLoop_cons_neg k rtt l a h, positiveRTTs_cons_neg k rtt l h]
      exact ih a ha

/-- The minimum kept by the loop of `calculateStats`. -/
theorem statsLoop_min (l : RTTMap) :
    ∀ a : StatsAcc, 0 ≤ a.count →
      (a.count = 0 → positiveRTTs l ≠ [] →
        (statsLoop l a).min ∈ positiveRTTs l ∧ ∀ x ∈ positiveRTTs l, (statsLoop l a).min ≤ x) ∧
      (0 < a.count →
        ((statsLoop l a).min = a.min ∨ (statsLoop l a).min ∈ positiveRTTs l) ∧
        (statsLoop l a).min ≤ a.min ∧ ∀ x ∈ positiveRTTs l, (statsLoop l a).min ≤ x) := by
  induction l with
  | nil =>
    intro a _
    constructor
    · intro _ h; exact absurd rfl h
    · intro _; simp [statsLoop, positiveRTTs]
  | cons e l ih =>
    intro a ha
    obtain ⟨k, rtt⟩ := e
    by_cases h : rtt > 0
    · rw [statsLoop_cons_pos k rtt l a h, positiveRTTs_cons_pos k rtt l h]
      have hacc : ∃ a' : StatsAcc, a' =
          { total := wrap64 (a.total + rtt)
            min := if a.count = 0 ∨ rtt < a.min then rtt else a.min
            max := if a.count = 0 ∨ rtt > a.max then rtt else a.max
            count := a.count + 1 } := ⟨_, rfl⟩
      obtain ⟨a', ha'⟩ := hacc
      rw [← ha']
      have hf : a'.min = if a.count = 0 ∨ rtt < a.min then rtt else a.min := by rw [ha']
      have hcnt : a'.count = a.count + 1 := by rw [ha']
      obtain ⟨hor, hle, hall⟩ := (ih a' (by omega)).2 (by omega)
      rw [hf] at hor hle
      constructor
      · intro h0 _
        rw [if_pos (Or.inl h0)] at hor hle
        refine ⟨?_, ?_⟩
        · rcases hor with hor | hor
          · rw [hor]; exact List.mem_cons_self _ _
          · exact List.mem_cons_of_mem _ hor
        · intro x hx
          rcases List.mem_cons.mp hx with rfl | hx
          · exact hle
          · exact hall x hx
      · intro hpos
        have hc : ¬ a.count = 0 := by omega
        by_cases hlt : rtt < a.min
        · rw [if_pos (Or.inr hlt)] at hor hle
          refine ⟨?_, le_trans hle (le_of_lt hlt), ?_⟩
          · rcases hor with hor | hor
            · right; rw [hor]; exact List.mem_cons_self _ _
            · right; exact List.mem_cons_of_mem _ hor
          · intro x hx
            rcases List.mem_cons.mp hx with rfl | hx
            · exact hle
            · exact hall x hx
        · rw [if_neg (by rintro (h1 | h1); exact hc h1; exact hlt h1)] at hor hle
          refine ⟨?_, hle, ?_⟩
          · rcases hor with hor | hor
            · left; exact hor
            · right; exact List.mem_cons_of_mem _ hor
          · intro x hx
            rcases List.mem_cons.mp hx with rfl | hx
            · exact le_trans hle (not_lt.mp hlt)
            · exact hall x hx
    · rw [statsLoop_cons_neg k rtt l a h, positiveRTTs_cons_neg k rtt l h]
      exact ih a ha

/-- The maximum kept by the loop of `calculateStats`. -/
theorem statsLoop_max (l : RTTMap) :
    ∀ a : StatsAcc, 0 ≤ a.count →
      (a.count = 0 → positiveRTTs l ≠ [] →
        (statsLoop l a).max ∈ positiveRTTs l ∧ ∀ x ∈ positiveRTTs l, x ≤ (statsLoop l a).max) ∧
      (0 < a.count →
        ((statsLoop l a).max = a.max ∨ (statsLoop l a).max ∈ positiveRTTs l) ∧
        a.max ≤ (statsLoop l a).max ∧ ∀ x ∈ positiveRTTs l, x ≤ (statsLoop l a).max) := by
  induction l with
  | nil =>
    intro a _
    constructor
    · intro _ h; exact absurd rfl h
    · intro _; simp [statsLoop, positiveRTTs]
  | cons e l ih =>
    intro a ha
    obtain ⟨k, rtt⟩ := e
    by_cases h : rtt > 0
    · rw [statsLoop_cons_pos k rtt l a h, positiveRTTs_cons_pos k rtt l h]
      have hacc : ∃ a' : StatsAcc, a' =
          { total := wrap64 (a.total + rtt)
            min := if a.count = 0 ∨ rtt < a.min then rtt else a.min
            max := if a.count = 0 ∨ rtt > a.max then rtt else a.max
            count := a.count + 1 } := ⟨_, rfl⟩
      obtain ⟨a', ha'⟩ := hacc
      rw [← ha']
      have hf : a'.max = if a.count = 0 ∨ rtt > a.max then rtt else a.max := by rw [ha']
      have hcnt : a'.count = a.count + 1 := by rw [ha']
      obtain ⟨hor, hle, hall⟩ := (ih a' (by omega)).2 (by omega)
      rw [hf] at hor hle
      constructor
      · intro h0 _
        rw [if_pos (Or.inl h0)] at hor hle
        refine ⟨?_, ?_⟩
        · rcases hor with hor | hor
          · rw [hor]; exact List.mem_cons_self _ _
          · exact List.mem_cons_of_mem _ hor
        · intro x hx
          rcases List.mem_cons.mp hx with rfl | hx
          · exact hle
          · exact hall x hx
      · intro hpos
        have hc : ¬ a.count = 0 := by omega
        by_cases hlt : rtt > a.max
        · rw [if_pos (Or.inr hlt)] at hor hle
          refine ⟨?_, le_trans (le_of_lt hlt) hle, ?_⟩
          · rcases hor with hor | hor
            · right; rw [hor]; exact List.mem_cons_self _ _
            · right; exact List.mem_cons_of_mem _ hor
          · intro x hx
            rcases List.mem_cons.mp hx with rfl | hx
            · exact hle
            · exact hall x hx
        · rw [if_neg (by rintro (h1 | h1); exact hc h1; exact hlt h1)] at hor hle
          refine ⟨?_, hle, ?_⟩
          · rcases hor with hor | hor
            · left; exact hor
            · right; exact List.mem_cons_of_mem _ hor
          · intro x hx
            rcases List.mem_cons.mp hx with rfl | hx
            · exact le_trans (not_lt.mp hlt) hle
            · exact hall x hx
    · rw [statsLoop_cons_neg k rtt l a h, positiveRTTs_cons_neg k rtt l h]
      exact ih a ha

/-- Without a positive RTT the loop of `calculateStats` changes nothing. -/
theorem statsLoop_of_no_positive (l : RTTMap) (h : positiveRTTs l = []) :
    ∀ a, statsLoop l a = a := by
  induction l with
  | nil => intro a; rfl
  | cons e l ih =>
    intro a
    obtain ⟨k, rtt⟩ := e
    by_cases hp : rtt > 0
    · rw [positiveRTTs_cons_pos k rtt l hp] at h; cases h
    · rw [positiveRTTs_cons_neg k rtt l hp] at h
      rw [statsLoop_cons_neg k rtt l a hp]; exact ih h a

/-- The loop of `printStats` computes what the loop of `calculateStats`
computes, and collects the positive RTTs. -/
theorem printStatsLoop_eq (l : RTTMap) :
    ∀ a, (printStatsLoop l a).toStats = statsLoop l a.toStats ∧
      (printStatsLoop l a).rttValues = a.rttValues ++ positiveRTTs l := by
  induction l with
  | nil => intro a; simp [printStatsLoop, statsLoop, positiveRTTs]
  | cons e l ih =>
    intro a
    obtain ⟨k, rtt⟩ := e
    by_cases h : rtt > 0
    · rw [printStatsLoop, if_pos h, statsLoop_cons_pos k rtt l _ h,
        positiveRTTs_cons_pos k rtt l h]
      obtain ⟨h1, h2⟩ := ih
        { total := wrap64 (a.total + rtt)
          rttValues := a.rttValues ++ [rtt]
          min := if a.validRTT = 0 ∨ rtt < a.min then rtt else a.min
          max := if a.validRTT = 0 ∨ rtt > a.max then rtt else a.max
          validRTT := a.validRTT + 1 }
      rw [h1, h2]
      simp [PrintAcc.toStats]
    · rw [printStatsLoop, if_neg h, statsLoop_cons_neg k rtt l _ h,
        positiveRTTs_cons_neg k rtt l h]
      exact ih a

/-- A map with a positive RTT has a positive RTT in its list. -/
theorem positiveRTTs_ne_nil (rtts : RTTMap) (h : ∃ e ∈ rtts, 0 < e.2) :
    positiveRTTs rtts ≠ [] := by
  obtain ⟨e, he, hpos⟩ := h
  have : e.2 ∈ positiveRTTs rtts := by
    simp only [positiveRTTs, List.mem_filter, List.mem_map, decide_eq_true_eq]
    exact ⟨⟨e, he, rfl⟩, hpos⟩
  intro hnil
  rw [hnil] at this
  cases this

/-- Visiting the entries in another order permutes the positive RTTs. -/
theorem positiveRTTs_perm (l₁ l₂ : RTTMap) (h : l₁.Perm l₂) :
    (positiveRTTs l₁).Perm (positiveRTTs l₂) :=
  (h.map _).filter _

/-- The positive RTTs are positive. -/
theorem positiveRTTs_pos (rtts : RTTMap) : ∀ x ∈ positiveRTTs rtts, 0 < x := by
  intro x hx
  simp only [positiveRTTs, List.mem_filter, decide_eq_true_eq] at hx
  exact hx.2

/-- What `calculateStats` returns for a map with a positive RTT. -/
theorem calculateStats_char (rtts : RTTMap) (h : positiveRTTs rtts ≠ []) :
    (calculateStats rtts).min ∈ positiveRTTs rtts ∧
    (∀ x ∈ positiveRTTs rtts, (calculateStats rtts).min ≤ x) ∧
    (calculateStats rtts).max ∈ positiveRTTs rtts ∧
    (∀ x ∈ positiveRTTs rtts, x ≤ (calculateStats rtts).max) ∧
    (calculateStats rtts).avg =
      Int.tdiv (wrap64 (positiveRTTs rtts).sum) ((positiveRTTs rtts).length : Int) := by
  obtain ⟨hmin1, hmin2⟩ := (statsLoop_min rtts { total := 0, min := 0, max := 0, count := 0 }
    (le_refl _)).1 rfl h
  obtain ⟨hmax1, hmax2⟩ := (statsLoop_max rtts { total := 0, min := 0, max := 0, count := 0 }
    (le_refl _)).1 rfl h
  obtain ⟨ht, hc⟩ := statsLoop_total_count rtts { total := 0, min := 0, max := 0, count := 0 }
    (by decide)
  refine ⟨hmin1, hmin2, hmax1, hmax2, ?_⟩
  have hlen : 0 < (positiveRTTs rtts).length := List.length_pos.mpr h
  unfold calculateStats
  dsimp only
  rw [hc, ht]
  simp only [zero_add]
  rw [if_pos (by omega)]

/-- The average of a non-empty list of integers lies between a lower and an
upper bound of its elements. -/
theorem avg_bounds (l : List Int) (lo hi : Int) (hl : l ≠ []) (hlo : ∀ x ∈ l, lo ≤ x)
    (hhi : ∀ x ∈ l, x ≤ hi) : lo ≤ l.sum / (l.length : Int) ∧ l.sum / (l.length : Int) ≤ hi := by
  have hlen : (0 : Int) < (l.length : Int) := by
    have := List.length_pos.mpr hl
    omega
  have h1 : (l.length : Int) * lo ≤ l.sum := by
    have := List.card_nsmul_le_sum l lo hlo
    simpa [nsmul_eq_mul] using this
  have h2 : l.sum ≤ (l.length : Int) * hi := by
    have := List.sum_le_card_nsmul l hi hhi
    simpa [nsmul_eq_mul] using this
  constructor
  · apply Int.le_ediv_of_mul_le hlen
    rw [mul_comm]; exact h1
  · apply Int.ediv_le_of_le_mul hlen
    rw [mul_comm]; exact h2

/-- The result of `calculateStats` does not depend on the order in which the
entries are visited. -/
theorem calculateStats_perm (l₁ l₂ : RTTMap) (h : l₁.Perm l₂) :
    calculateStats l₁ = calculateStats l₂ := by
  have hp := positiveRTTs_perm l₁ l₂ h
  by_cases hnil : positiveRTTs l₂ = []
  · have hnil1 : positiveRTTs l₁ = [] := by
      rw [hnil] at hp; exact List.perm_nil.mp hp
    unfold calculateStats
    rw [statsLoop_of_no_positive l₁ hnil1, statsLoop_of_no_positive l₂ hnil]
  · have hnil1 : positiveRTTs l₁ ≠ [] := by
      intro h1; rw [h1] at hp; exact hnil (List.perm_nil.mp hp.symm)
    obtain ⟨a1, a2, a3, a4, a5⟩ := calculateStats_char l₁ hnil1
    obtain ⟨b1, b2, b3, b4, b5⟩ := calculateStats_char l₂ hnil
    have hmin : (calculateStats l₁).min = (calculateStats l₂).min :=
      le_antisymm (a2 _ (hp.mem_iff.mpr b1)) (b2 _ (hp.mem_iff.mp a1))
    have hmax : (calculateStats l₁).max = (calculateStats l₂).max :=
      le_antisymm (b4 _ (hp.mem_iff.mp a3)) (a4 _ (hp.mem_iff.mpr b3))
    have havg : (calculateStats l₁).avg = (calculateStats l₂).avg := by
      rw [a5, b5, hp.sum_eq, hp.length_eq]
    rcases h1 : calculateStats l₁ with ⟨m1, v1, x1⟩
    rcases h2 : calculateStats l₂ with ⟨m2, v2, x2⟩
    rw [h1, h2] at hmin hmax havg
    dsimp only at hmin hmax havg
    rw [hmin, hmax, havg]

/-- The report of `printStats` for a store with packets sent and received and
a positive RTT: the round-trip line shows the values of `calculateStats`. -/
theorem printStats_roundTrip (f : Flags) (st : Store) (hs : st.PacketsSent ≠ 0)
    (hr : st.PacketsRecv ≠ 0) (h : positiveRTTs st.RTTStats ≠ []) :
    ∃ rest, printStats f st =
      [Line.statsHeader, Line.counts st.PacketsSent st.PacketsRecv
          (lossPercent st.PacketsSent st.PacketsRecv),
        Line.roundTrip (Round (calculateStats st.RTTStats).min Microsecond)
          (Round (calculateStats st.RTTStats).avg Microsecond)
          (Round (calculateStats st.RTTStats).max Millisecond)] ++ rest := by
  obtain ⟨he, _⟩ := printStatsLoop_eq st.RTTStats
    { total := 0, min := 0, max := 0, validRTT := 0, rttValues := [] }
  obtain ⟨ht, hc⟩ := statsLoop_total_count st.RTTStats
    { total := 0, min := 0, max := 0, count := 0 } (by decide)
  have hlen : 0 < (positiveRTTs st.RTTStats).length := List.length_pos.mpr h
  have hne : st.RTTStats.length ≠ 0 := by
    intro h0
    have : st.RTTStats = [] := List.length_eq_zero.mp h0
    rw [this] at h
    exact h rfl
  have e1 : (printStatsLoop st.RTTStats
      { total := 0, min := 0, max := 0, validRTT := 0, rttValues := [] }).total =
      (statsLoop st.RTTStats { total := 0, min := 0, max := 0, count := 0 }).total :=
    congrArg StatsAcc.total he
  have e2 : (printStatsLoop st.RTTStats
      { total := 0, min := 0, max := 0, validRTT := 0, rttValues := [] }).min =
      (statsLoop st.RTTStats { total := 0, min := 0, max := 0, count := 0 }).min :=
    congrArg StatsAcc.min he
  have e3 : (printStatsLoop st.RTTStats
      { total := 0, min := 0, max := 0, validRTT := 0, rttValues := [] }).max =
      (statsLoop st.RTTStats { total := 0, min := 0, max := 0, count := 0 }).max :=
    congrArg StatsAcc.max he
  have e4 : (printStatsLoop st.RTTStats
      { total := 0, min := 0, max := 0, validRTT := 0, rttValues := [] }).validRTT =
      (statsLoop st.RTTStats { total := 0, min := 0, max := 0, count := 0 }).count :=
    congrArg StatsAcc.count he
  have hcnt : 0 < (statsLoop st.RTTStats { total := 0, min := 0, max := 0, count := 0 }).count := by
    rw [hc]; simp only [zero_add]; omega
  unfold printStats calculateStats
  dsimp only
  rw [if_neg hs, if_neg (by rintro (h1 | h1); exact hr h1; exact hne h1), e1, e2, e3, e4,
    if_neg (by omega), if_pos hcnt]
  by_cases hv : f.verbose = true
  · rw [if_pos hv]
    exact ⟨_, rfl⟩
  · rw [if_neg hv]
    exact ⟨[], rfl⟩

/-- C5 as the code has it: for a measurement map with at least one positive
RTT, `calculateStats` returns as min the smallest and as max the largest
positive RTT, and as avg the `int64` sum of the positive RTTs divided (integer
division) by their number; entries that are not positive play no part, nor
does the order in which the map is visited, and the round-trip line of
`printStats` shows the same three values, rounded.  When the positive RTTs add
up to less than `2^63` nanoseconds, avg is their exact sum divided by their
number and min ≤ avg ≤ max. -/
theorem calculateStats_spec (rtts : RTTMap) (h : ∃ e ∈ rtts, 0 < e.2) :
    (calculateStats rtts).min ∈ positiveRTTs rtts ∧
    (∀ x ∈ positiveRTTs rtts, (calculateStats rtts).min ≤ x) ∧
    (calculateStats rtts).max ∈ positiveRTTs rtts ∧
    (∀ x ∈ positiveRTTs rtts, x ≤ (calculateStats rtts).max) ∧
    (calculateStats rtts).avg =
      Int.tdiv (wrap64 (positiveRTTs rtts).sum) ((positiveRTTs rtts).length : Int) ∧
    ((positiveRTTs rtts).sum < 9223372036854775808 →
      (calculateStats rtts).avg =
        Int.tdiv (positiveRTTs rtts).sum ((positiveRTTs rtts).length : Int) ∧
      (calculateStats rtts).avg =
        (positiveRTTs rtts).sum / ((positiveRTTs rtts).length : Int) ∧
      (calculateStats rtts).min ≤ (calculateStats rtts).avg ∧
      (calculateStats rtts).avg ≤ (calculateStats rtts).max) ∧
    (∀ rtts' : RTTMap, rtts'.Perm rtts → calculateStats rtts' = calculateStats rtts) ∧
    (∀ (f : Flags) (sent recv : Int), sent ≠ 0 → recv ≠ 0 →
      ∃ rest, printStats f { PacketsSent := sent, PacketsRecv := recv, RTTStats := rtts } =
        [Line.statsHeader, Line.counts sent recv (lossPercent sent recv),
          Line.roundTrip (Round (calculateStats rtts).min Microsecond)
            (Round (calculateStats rtts).avg Microsecond)
            (Round (calculateStats rtts).max Millisecond)] ++ rest) := by
  have hne := positiveRTTs_ne_nil rtts h
  obtain ⟨h1, h2, h3, h4, h5⟩ := calculateStats_char rtts hne
  have hsum : 0 ≤ (positiveRTTs rtts).sum :=
    List.sum_nonneg (fun x hx => le_of_lt (positiveRTTs_pos rtts x hx))
  refine ⟨h1, h2, h3, h4, h5, ?_, ?_, ?_⟩
  · intro hb
    have hw : wrap64 (positiveRTTs rtts).sum = (positiveRTTs rtts).sum :=
      wrap64_of_range _ (by linarith) hb
    have h6 : (calculateStats rtts).avg =
        (positiveRTTs rtts).sum / ((positiveRTTs rtts).length : Int) := by
      rw [h5, hw, Int.tdiv_eq_ediv hsum (Int.natCast_nonneg _)]
    obtain ⟨hlo, hhi⟩ := avg_bounds (positiveRTTs rtts) _ _ hne h2 h4
    refine ⟨by rw [h5, hw], h6, ?_, ?_⟩
    · rw [h6]; exact hlo
    · rw [h6]; exact hhi
  · intro rtts' hp; exact calculateStats_perm rtts' rtts hp
  · intro f sent recv hs hr
    exact printStats_roundTrip f { PacketsSent := sent, PacketsRecv := recv, RTTStats := rtts }
      hs hr hne

/-- C5 as stated fails: for two measurements of `MaxInt64` nanoseconds the sum
wraps to -2 and `calculateStats` returns avg = -1, below min = `MaxInt64`, and
not the sum divided by the count, which is `MaxInt64`. -/
theorem calculateStats_wraps :
    calculateStats [(1, 9223372036854775807), (2, 9223372036854775807)] =
      { min := 9223372036854775807, avg := -1, max := 9223372036854775807 } ∧
    ¬ ((calculateStats [(1, 9223372036854775807), (2, 9223372036854775807)]).min ≤
      (calculateStats [(1, 9223372036854775807), (2, 9223372036854775807)]).avg) ∧
    (positiveRTTs [(1, 9223372036854775807), (2, 9223372036854775807)]).sum /
      (((positiveRTTs [(1, 9223372036854775807), (2, 9223372036854775807)]).length : Nat) : Int)
      = 9223372036854775807 := by
  decide

/-- The scenario of C5: five probes answered after 1, 2, 3, 4 and 5 ms leave
the store with 5 sent, 5 received and these measurements, 15 ms in all;
`calculateStats` gives min = 1 ms, avg = 3 ms, max = 5 ms, also when the map
is visited backwards, and min ≤ avg ≤ max. -/
theorem calculateStats_spec_witness :
    ((runPing pingFlags true 7
        [replyNet 7 1 (1 * Millisecond), replyNet 7 2 (2 * Millisecond),
          replyNet 7 3 (3 * Millisecond), replyNet 7 4 (4 * Millisecond),
          replyNet 7 5 (5 * Millisecond), silentNet]
        { store := Store.reset, seq := 1 }).getLast?.map RunState.store) =
      some { PacketsSent := 5, PacketsRecv := 5, RTTStats := fiveReplies } ∧
    (positiveRTTs fiveReplies).sum = 15 * Millisecond ∧
    calculateStats fiveReplies =
      { min := 1 * Millisecond, avg := 3 * Millisecond, max := 5 * Millisecond } ∧
    calculateStats fiveReplies.reverse = calculateStats fiveReplies ∧
    (calculateStats fiveReplies).min ≤ (calculateStats fiveReplies).avg ∧
    (calculateStats fiveReplies).avg ≤ (calculateStats fiveReplies).max := by
  have h := calculateStats_spec fiveReplies ⟨(1, 1 * Millisecond), by decide, by decide⟩
  have hb := h.2.2.2.2.2.1 (by decide)
  exact ⟨by decide, by decide, by decide, h.2.2.2.2.2.2.1 _ (List.reverse_perm _),
    hb.2.2.1, hb.2.2.2⟩

/-! ## The loss percentage (C4) -/

/-- The loss expression is a percentage when packets were sent and the
received ones are between none and all. -/
theorem lossPercent_bounds (sent recv : Int) (hs : 0 < sent) (h0 : 0 ≤ recv) (hr : recv ≤ sent) :
    ∃ q : ℚ, lossPercent sent recv = .fin q ∧ 0 ≤ q ∧ q ≤ 100 := by
  have hs' : (sent : ℚ) ≠ 0 := by exact_mod_cast (ne_of_gt hs)
  have hsq : (0 : ℚ) < (sent : ℚ) := by exact_mod_cast hs
  have h0q : (0 : ℚ) ≤ (recv : ℚ) := by exact_mod_cast h0
  have hrq : (recv : ℚ) ≤ (sent : ℚ) := by exact_mod_cast hr
  refine ⟨((sent - recv : Int) : ℚ) / (sent : ℚ) * 100, ?_, ?_, ?_⟩
  · simp [lossPercent, F64.ofInt, F64.div, F64.mul, hs']
  · apply mul_nonneg _ (by norm_num)
    apply div_nonneg _ (le_of_lt hsq)
    push_cast; linarith
  · have : ((sent - recv : Int) : ℚ) / (sent : ℚ) ≤ 1 := by
      rw [div_le_one hsq]; push_cast; linarith
    linarith

/-- With no packet sent the loss expression has no finite value. -/
theorem lossPercent_zero_sent (recv : Int) : (lossPercent 0 recv).isFinite = false := by
  simp only [lossPercent, F64.ofInt, F64.div, Int.cast_zero, if_true, zero_sub]
  split_ifs <;> simp [F64.mul, F64.isFinite]

/-- C4 on the code.  With packets sent, and the received ones between none and
all, the loss expression of the reporters is a value from 0 to 100.  With no
packet sent `printStats` and `printLiveStats` return before the expression,
but `writeJSONStats` evaluates it: the division by zero gives no finite
value, the JSON encoding fails and no file is written.  A run with
`-c -1` reaches that call with the reset store. -/
theorem writeJSONStats_zero_sent :
    (∀ sent recv : Int, 0 < sent → 0 ≤ recv → recv ≤ sent →
      ∃ q : ℚ, lossPercent sent recv = .fin q ∧ 0 ≤ q ∧ q ≤ 100) ∧
    (∀ (f : Flags) (st : Store), st.PacketsSent = 0 →
      printStats f st = [] ∧ printLiveStats f st = []) ∧
    (∀ (filename : String) (fileOk : Bool) (st : Store), st.PacketsSent = 0 →
      (writeJSONStats filename fileOk st).result.PacketLoss = lossPercent 0 st.PacketsRecv ∧
      (writeJSONStats filename fileOk st).result.PacketLoss.isFinite = false ∧
      (writeJSONStats filename fileOk st).file = none ∧
      (writeJSONStats filename fileOk st).out = [.jsonMarshalError]) ∧
    (∀ (v4 : Bool) (id : Int) (nets : List Net),
      runPing { pingFlags with count := -1 } v4 id nets { store := Store.reset, seq := 1 } = []) ∧
    (writeJSONStats "stats.json" true Store.reset).result.PacketLoss = .nan := by
  refine ⟨lossPercent_bounds, ?_, ?_, ?_, ?_⟩
  · intro f st h
    constructor
    · unfold printStats; dsimp only; rw [if_pos h]
    · unfold printLiveStats; dsimp only; rw [if_pos h]
  · intro filename fileOk st h
    have hl := lossPercent_zero_sent st.PacketsRecv
    unfold writeJSONStats
    dsimp only
    rw [h, hl]
    simp [hl]
  · intro v4 id nets
    cases nets with
    | nil => rfl
    | cons net nets =>
      unfold runPing
      rw [if_neg (by decide)]
  · simp [writeJSONStats, lossPercent, Store.reset, F64.ofInt, F64.div, F64.mul, F64.isFinite]

/-! ## The packet builder (C8) -/

/-- The echo body that `icmpMsg` builds. -/
theorem icmpMsg_body (f : Flags) (v4 : Bool) (id seq : Int) :
    (icmpMsg f v4 id seq).1.Body = { ID := id, Seq := seq, Data := payload f.size.toNat } := by
  unfold icmpMsg; split_ifs <;> rfl

/-- The pattern bytes: `n` of them, the `i`-th being `'A' + i % 26`. -/
theorem payload_spec (n : Nat) :
    (payload n).length = n ∧ ∀ i < n, (payload n)[i]? = some (65 + i % 26) := by
  unfold payload
  refine ⟨by simp, ?_⟩
  intro i hi
  rw [List.getElem?_map, List.getElem?_range hi]
  simp only [Option.map_some']
  congr 1
  omega

/-- C8 as the code has it: for every payload size `n` in 0..1472 `icmpMsg`
returns, without an error, an Echo message with the probe's id and seq whose
data has length `n` with byte `i` equal to `'A' + (i mod 26)`.  For a payload
size above 1472 it returns no error either: it has no size check, and for
every size from 1473 to 65507, the largest payload of an IPv4 datagram, it
returns a message with that many data bytes.  Sizes above 1472 are refused
before any packet is built, by the flag check of `main`. -/
theorem icmpMsg_spec (f : Flags) (v4 : Bool) (id seq : Int) :
    (∀ n : Nat, n ≤ 1472 →
      (icmpMsg { f with size := (n : Int) } v4 id seq).2 = none ∧
      (icmpMsg { f with size := (n : Int) } v4 id seq).1.Body.ID = id ∧
      (icmpMsg { f with size := (n : Int) } v4 id seq).1.Body.Seq = seq ∧
      (icmpMsg { f with size := (n : Int) } v4 id seq).1.Body.Data.length = n ∧
      (∀ i < n, (icmpMsg { f with size := (n : Int) } v4 id seq).1.Body.Data[i]? =
        some (65 + i % 26))) ∧
    (∀ n : Nat, 1472 < n → n ≤ 65507 →
      (icmpMsg { f with size := (n : Int) } v4 id seq).2 = none ∧
      (icmpMsg { f with size := (n : Int) } v4 id seq).1.Body.Data.length = n) ∧
    (1472 < f.size → Millisecond ≤ f.interval →
      checkFlags f = some "size must be 0-1472 bytes") := by
  have hb : ∀ n : Nat, (icmpMsg { f with size := (n : Int) } v4 id seq).1.Body =
      { ID := id, Seq := seq, Data := payload n } := by
    intro n
    rw [icmpMsg_body]
    dsimp only
    rw [Int.toNat_ofNat]
  refine ⟨?_, ?_, ?_⟩
  · intro n _
    rw [hb n]
    exact ⟨icmpMsg_error _ _ _ _, rfl, rfl, (payload_spec n).1, (payload_spec n).2⟩
  · intro n _ _
    rw [hb n]
    exact ⟨icmpMsg_error _ _ _ _, (payload_spec n).1⟩
  · intro hn hi
    unfold checkFlags
    rw [if_neg (not_lt.mpr hi), if_pos (Or.inr hn)]

/-- C8 as stated fails: for a payload size of 1473 bytes `icmpMsg` returns no
error but a message with 1473 data bytes. -/
theorem icmpMsg_no_error_above_1472 :
    (icmpMsg { pingFlags with size := 1473 } true 7 1).2 = none ∧
    (icmpMsg { pingFlags with size := 1473 } true 7 1).1.Body.Data.length = 1473 :=
  ⟨icmpMsg_error _ _ _ _, by
    rw [icmpMsg_body]
    simp [payload, pingFlags]⟩

/-- A packet of 30 data bytes: the alphabet and its first four letters again,
and no error; a size of 1473 is refused by the flag check. -/
theorem icmpMsg_spec_witness :
    (icmpMsg { pingFlags with size := 30 } true 7 1).1.Body.Data =
      [65, 66, 67, 68, 69, 70, 71, 72, 73, 74, 75, 76, 77, 78, 79, 80, 81, 82, 83, 84, 85, 86,
        87, 88, 89, 90, 65, 66, 67, 68] ∧
    (icmpMsg { pingFlags with size := ((30 : Nat) : Int) } true 7 1).2 = none ∧
    checkFlags { pingFlags with size := 1473 } = some "size must be 0-1472 bytes" :=
  ⟨by decide, ((icmpMsg_spec pingFlags true 7 1).1 30 (by decide)).1,
    (icmpMsg_spec { pingFlags with size := 1473 } true 7 1).2.2 (by decide) (by decide)⟩

/-! ## MTU discovery (C7) -/

/-- The send loop counts 3 successes exactly when all three sends succeed. -/
theorem sendLoop_eq_three (f : Flags) (v4 : Bool) (id : Int) (n : MTUNet) :
    sendLoop f v4 id n.sends 3 0 0 = 3 ↔ n.passes = true := by
  simp only [sendLoop, icmpMsg_error, MTUNet.passes]
  generalize n.sends 0 = s0
  generalize n.sends 1 = s1
  generalize n.sends 2 = s2
  obtain ⟨m0, w0⟩ := s0
  obtain ⟨m1, w1⟩ := s1
  obtain ⟨m2, w2⟩ := s2
  cases m0 <;> cases w0 <;> cases m1 <;> cases w1 <;> cases m2 <;> cases w2 <;> decide

/-- The candidate loop of `discoverMTU` leaves the flags as they were and
ends with the last tested candidate that achieved 3/3 before the first one
that did not. -/
theorem mtuLoop_spec (v4 : Bool) (id : Int) (net : Int → MTUNet) (menu : List Int) :
    ∀ (f : Flags) (m : Int),
      (mtuLoop v4 id net menu f m).flags = f ∧
      (mtuLoop v4 id net menu f m).maxSuccess = discovered net menu m := by
  induction menu with
  | nil => intro f m; exact ⟨rfl, rfl⟩
  | cons t rest ih =>
    intro f m
    have hf : ({ ({ f with size := t - 28 } : Flags) with size := f.size } : Flags) = f := by
      cases f; rfl
    rw [mtuLoop]
    dsimp only
    by_cases h1 : t - 28 > 1472
    · rw [if_pos h1]
      have : candidatesTested net (t :: rest) = candidatesTested net rest := by
        unfold candidatesTested
        rw [List.filter_cons_of_neg]
        simp only [Bool.and_eq_true, decide_eq_true_eq, not_and]
        intro h; omega
      unfold discovered
      rw [this]
      exact ih f m
    · rw [if_neg h1]
      by_cases h2 : (net t).connOk = true
      · have ht : candidatesTested net (t :: rest) = t :: candidatesTested net rest := by
          unfold candidatesTested
          rw [List.filter_cons_of_pos]
          simp only [Bool.and_eq_true, decide_eq_true_eq]
          exact ⟨by omega, h2⟩
        rw [if_neg (by simp [h2]), hf]
        by_cases h3 : (net t).passes = true
        · rw [if_pos ((sendLoop_eq_three _ v4 id (net t)).mpr h3)]
          dsimp only
          refine ⟨(ih f t).1, ?_⟩
          rw [(ih f t).2]
          unfold discovered
          rw [ht, List.takeWhile_cons, if_pos h3, List.getLast?_cons]
          rfl
        · rw [if_neg (fun h => h3 ((sendLoop_eq_three _ v4 id (net t)).mp h))]
          refine ⟨rfl, ?_⟩
          unfold discovered
          rw [ht, List.takeWhile_cons, if_neg h3]
          rfl
      · have : candidatesTested net (t :: rest) = candidatesTested net rest := by
          unfold candidatesTested
          rw [List.filter_cons_of_neg]
          simp only [Bool.and_eq_true, decide_eq_true_eq, not_and]
          intro _; exact h2
        rw [if_pos (by simp [h2]), hf]
        unfold discovered
        rw [this]
        exact ih f m

/-- On the menu of `discoverMTU` only the candidate 1500 can be discovered. -/
theorem discovered_sizes (net : Int → MTUNet) :
    discovered net sizes 0 =
      if (net 1500).connOk = true ∧ (net 1500).passes = true then 1500 else 0 := by
  unfold discovered candidatesTested sizes
  by_cases h1 : (net 1500).connOk = true <;> by_cases h2 : (net 1500).passes = true <;>
    simp [List.filter_cons, List.takeWhile_cons, h1, h2]

/-- C7 as the code has it: `discoverMTU` discovers the last candidate of its
menu that achieved 3/3 before the first failing one among the candidates it
tests, and it tests only those whose payload (candidate − 28) is at most 1472
and whose socket opens.  On the menu 1500, 9000, 12000 that is 1500 or
nothing: when candidate 1500 achieves 3/3 the discovered size is 1500 and
`*size` becomes 1472, whatever the sends for 9000 and 12000 would do;
otherwise nothing is discovered and `*size` stays as it was.  A discovered
size always sets `*size` to that size minus 28. -/
theorem discoverMTU_spec (f : Flags) (v4 : Bool) (id : Int) (net : Int → MTUNet) :
    (discoverMTU f v4 id net).maxSuccess = discovered net sizes 0 ∧
    ((net 1500).connOk = true ∧ (net 1500).passes = true →
      (discoverMTU f v4 id net).maxSuccess = 1500 ∧
      (discoverMTU f v4 id net).flags = { f with size := 1472 }) ∧
    (¬ ((net 1500).connOk = true ∧ (net 1500).passes = true) →
      (discoverMTU f v4 id net).maxSuccess = 0 ∧
      (discoverMTU f v4 id net).flags = f) ∧
    (0 < (discoverMTU f v4 id net).maxSuccess →
      (discoverMTU f v4 id net).flags =
        { f with size := (discoverMTU f v4 id net).maxSuccess - 28 }) := by
  obtain ⟨hfl, hmax⟩ := mtuLoop_spec v4 id net sizes f 0
  have hd := discovered_sizes net
  have hm : (discoverMTU f v4 id net).maxSuccess = discovered net sizes 0 := by
    unfold discoverMTU
    dsimp only
    split_ifs <;> exact hmax
  have hflags : (discoverMTU f v4 id net).flags =
      if discovered net sizes 0 > 0 then { f with size := discovered net sizes 0 - 28 }
      else f := by
    unfold discoverMTU
    dsimp only
    rw [hmax, hfl]
    split_ifs <;> rfl
  refine ⟨hm, ?_, ?_, ?_⟩
  · intro h
    rw [hflags, hm, hd, if_pos h]
    exact ⟨rfl, rfl⟩
  · intro h
    rw [hflags, hm, hd, if_neg h]
    exact ⟨rfl, rfl⟩
  · intro h
    rw [hflags, hm]
    rw [hm] at h
    rw [if_pos h]

/-- C7 as stated fails: when the sends for 1500 and 9000 all succeed and those
for 12000 all fail, `discoverMTU` discovers 1500 and sets `*size` to 1472,
not 9000 and 8972; the candidate 9000 is never tested. -/
theorem discoverMTU_jumbo_counterexample :
    ((jumboNet 1500).passes = true ∧ (jumboNet 9000).passes = true ∧
      (jumboNet 12000).passes = false) ∧
    (discoverMTU pingFlags true 7 jumboNet).maxSuccess = 1500 ∧
    (discoverMTU pingFlags true 7 jumboNet).flags.size = 1472 ∧
    (discoverMTU pingFlags true 7 jumboNet).out =
      [.mtuStart, .mtuOK 1500, .maxMTU 1500 1472] ∧
    ¬ ((discoverMTU pingFlags true 7 jumboNet).maxSuccess = 9000 ∧
      (discoverMTU pingFlags true 7 jumboNet).flags.size = 8972) := by
  decide

/-- The amended C7 in its scenario, and with a candidate 1500 whose sends
fail: the size 1500 with `*size = 1472` in the first, nothing discovered and
`*size` still 56 in the second. -/
theorem discoverMTU_spec_witness :
    ((discoverMTU pingFlags true 7 jumboNet).maxSuccess = 1500 ∧
      (discoverMTU pingFlags true 7 jumboNet).flags = { pingFlags with size := 1472 }) ∧
    ((discoverMTU pingFlags true 7 (fun _ => allSends false)).maxSuccess = 0 ∧
      (discoverMTU pingFlags true 7 (fun _ => allSends false)).flags = pingFlags) :=
  ⟨(discoverMTU_spec pingFlags true 7 jumboNet).2.1 ⟨rfl, rfl⟩,
    (discoverMTU_spec pingFlags true 7 (fun _ => allSends false)).2.2.1 (by decide)⟩

end Pinger
